import Mathlib

/-!
Verification development for the `lox-interpreter` repository: a shallow
embedding of its scanner, parser, resolver and tree-walking interpreter,
with theorems checking the specification's claims against the code.

Python floats (Lox numbers) are modelled as rationals; all claim programs
use small integral values where IEEE doubles are exact.
-/

namespace Lox

/-- Modelled from the spec: `data_types/token_type.py` is imported throughout the
source but the module itself is absent from the repository snapshot.  The variant
names are exactly those referenced by `scanner.py` and `parser.py`, and the token
kinds listed in spec section 3. -/
inductive TokenType where
  | PLUS | MINUS | STAR | SLASH | SEMICOLON | DOT | COMMA
  | LEFT_PAREN | RIGHT_PAREN | LEFT_BRACE | RIGHT_BRACE
  | LEFT_BRACKET | RIGHT_BRACKET | QUESTION | COLON
  | BANG | BANG_EQUAL | EQUAL | EQUAL_EQUAL
  | LESS | LESS_EQUAL | GREATER | GREATER_EQUAL
  | IDENTIFIER | STRING | NUMBER
  | AND | OR | IF | ELSE | TRUE | FALSE | NIL | VAR | FUN
  | RETURN | FOR | WHILE | CLASS | THIS | PRINT
  | EOF
  deriving DecidableEq, Repr

/-- The `literal` payload of a token: `Union[str, float, None]` in
`data_types/lexical_token.py` (floats modelled as rationals). -/
inductive TokLit where
  | none
  | str (s : String)
  | num (q : ℚ)
  deriving DecidableEq, Repr

/-- Source `data_types/lexical_token.py` `Token`: fields `type`, `lexeme`, `literal`.
Note the source `Token` has no `line` field; equality and hashing compare
`(type, lexeme, literal)`, which this structural equality mirrors. -/
structure Token where
  type : TokenType
  lexeme : String
  literal : TokLit := TokLit.none
  deriving DecidableEq, Repr

/-- Modelled from the spec: `data_types/keywords.py` (imported by the scanner) is
absent from the snapshot.  Keyword list from spec section 3. -/
def KEYWORDS : List (String × TokenType) :=
  [("and", .AND), ("or", .OR), ("if", .IF), ("else", .ELSE),
   ("true", .TRUE), ("false", .FALSE), ("nil", .NIL), ("var", .VAR),
   ("fun", .FUN), ("return", .RETURN), ("for", .FOR), ("while", .WHILE),
   ("class", .CLASS), ("this", .THIS), ("print", .PRINT)]

/-! ## Error message constants (`data_types/error_messages.py`) -/

def UNTERMINATED_STRING : String := "Unterminated string."
def INVALID_CHAR : String := "Unexpected character."
def MISSING_SEMICOLON : String := "Expect \x27;\x27 after expression."
def INVALID_ASSIGNMENT : String := "Invalid assignment target."
def MISSING_CLOSING_BRACE : String := "Expect \x27\x7d\x27 after block."
def MISSING_IF_OPEN_BRACKET : String := "Expect \x27(\x27 after \x27if\x27."
def MISSING_IF_CLOSE_BRACKET : String := "Expect \x27)\x27 after if condition."
def MISSING_WHILE_OPEN_BRACKET : String := "Expect \x27(\x27 after \x27while\x27."
def MISSING_WHILE_CLOSE_BRACKET : String := "Expect \x27)\x27 after while condition."
def MISSING_FOR_OPEN_BRACE : String := "Expect \x27(\x27 after \x27for\x27."
def MISSING_FOR_CLOSE_BRACE : String := "Expect \x27)\x27 after for clauses."
def MISSING_SEMICOLON_IN_FOR_LOOP_CONDITION : String := "Expect \x27;\x27 after loop condition."
def DIVIDE_BY_ZERO_ERROR : String := "Can not divide by zero."
def EXPECT_TYPE_NUMBER : String := "Operands must be numbers."
def EXPECT_TYPE_NUMBER_OR_STRING : String := "Operands must be two numbers or two strings."
def INVALID_BINARY_EXPRESSION : String := "Operator is not a valid binary expression."

/-! ## Scanner (`scanner/scanner.py`)

The Python scanner walks `text` with an index `pos`; the embedding carries the
unconsumed suffix `rest` directly (consuming a character = taking the tail) and
threads `line`, the token list and the reported errors.  The error reporter is
modelled as the accumulating list of `set_error (line, message)` calls. -/

def EOF_LEXEME : String := "/0"

structure ScannerState where
  rest : List Char
  line : Nat
  tokens : List Token
  errors : List (Nat × String)
  deriving Repr

/-- Source `Scanner.scan_string` body: consume characters until a closing quote or end of
input, bumping `line` at each newline.  Returns the consumed characters, the
updated line, the remaining input, and whether the closing `"` was found
(consuming it when present). -/
def scanStringAux : List Char → Nat → (List Char × Nat × List Char × Bool)
  | [], line => ([], line, [], false)
  | c :: rest, line =>
    if c = '"' then ([], line, rest, true)
    else
      let line' := if c = '\n' then line + 1 else line
      let (s, l, r, cl) := scanStringAux rest line'
      (c :: s, l, r, cl)

/-- Source `Scanner.scan_number` loop: consume digits and dots. -/
def scanNumberAux : List Char → (List Char × List Char)
  | [] => ([], [])
  | c :: rest =>
    if c.isDigit ∨ c = '.' then
      let (s, r) := scanNumberAux rest
      (c :: s, r)
    else ([], c :: rest)

/-- Source `Scanner.scan_identifier` loop: consume letters and digits. -/
def scanIdentAux : List Char → (List Char × List Char)
  | [] => ([], [])
  | c :: rest =>
    if c.isAlpha ∨ c.isDigit then
      let (s, r) := scanIdentAux rest
      (c :: s, r)
    else ([], c :: rest)

def digitsToNat (cs : List Char) : Nat :=
  cs.foldl (fun acc c => acc * 10 + (c.toNat - '0'.toNat)) 0

/-- Python `float(s)` on the digit/dot lexeme collected by `scan_number`:
defined when the lexeme has at most one dot (a trailing dot as in `"1."` is
accepted, just as `float` accepts it); `none` models the `ValueError` that a
lexeme such as `"1.2.3"` raises, which would crash the scanner. -/
def pyFloatOfLexeme (cs : List Char) : Option ℚ :=
  match cs.splitOn '.' with
  | [intPart] => some (digitsToNat intPart : ℚ)
  | [intPart, fracPart] =>
      some ((digitsToNat intPart : ℚ) +
        (digitsToNat fracPart : ℚ) / ((10 : ℚ) ^ fracPart.length))
  | _ => Option.none

/-- One iteration of `Scanner.scan`'s while-loop (`prev` is the remainder of
the loop; every iteration consumes at least one character, so
`text.length + 1` iterations always suffice).  `none` models a host
`ValueError` escaping `float()`. -/
def scanLoopStep (prev : ScannerState → Option (List Token × List (Nat × String)))
    (st : ScannerState) : Option (List Token × List (Nat × String)) :=
  match st.rest with
    | [] =>
      some (st.tokens ++ [⟨.EOF, EOF_LEXEME, .none⟩], st.errors)
    | c :: rest =>
      if c = ' ' ∨ c = '\r' ∨ c = '\t' ∨ c = '\n' then
        -- whitespace branch: skipped with no token; note the source does NOT
        -- increment `line` here (its newline branch compares against the
        -- two-character string "/n" and never fires)
        prev { st with rest := rest }
      else if c.isDigit then
        let (ds, rest') := scanNumberAux rest
        match pyFloatOfLexeme (c :: ds) with
        | Option.none => Option.none
        | some q =>
          let lex := String.mk (c :: ds)
          prev { st with
            rest := rest',
            tokens := st.tokens ++ [⟨.NUMBER, lex, .num q⟩] }
      else if c = '"' then
        let (s, line', rest', closed) := scanStringAux rest st.line
        let content := String.mk s
        let errors' := if closed then st.errors
          else st.errors ++ [(line', UNTERMINATED_STRING)]
        -- `scan_string` returns a STRING token in both cases and `scan`
        -- appends it unconditionally
        prev {
          rest := rest',
          line := line',
          tokens := st.tokens ++ [⟨.STRING, content, .str content⟩],
          errors := errors' }
      else if c = '+' then
        prev { st with rest := rest, tokens := st.tokens ++ [⟨.PLUS, "+", .none⟩] }
      else if c = '-' then
        prev { st with rest := rest, tokens := st.tokens ++ [⟨.MINUS, "-", .none⟩] }
      else if c = '*' then
        prev { st with rest := rest, tokens := st.tokens ++ [⟨.STAR, "*", .none⟩] }
      else if c = '/' then
        prev { st with rest := rest, tokens := st.tokens ++ [⟨.SLASH, "/", .none⟩] }
      else if c = ';' then
        prev { st with rest := rest, tokens := st.tokens ++ [⟨.SEMICOLON, ";", .none⟩] }
      else if c = '.' then
        prev { st with rest := rest, tokens := st.tokens ++ [⟨.DOT, ".", .none⟩] }
      else if c = ',' then
        prev { st with rest := rest, tokens := st.tokens ++ [⟨.COMMA, ",", .none⟩] }
      else if c = '(' then
        prev { st with rest := rest, tokens := st.tokens ++ [⟨.LEFT_PAREN, "(", .none⟩] }
      else if c = ')' then
        prev { st with rest := rest, tokens := st.tokens ++ [⟨.RIGHT_PAREN, ")", .none⟩] }
      else if c = '\x7b' then
        prev { st with rest := rest, tokens := st.tokens ++ [⟨.LEFT_BRACE, "\x7b", .none⟩] }
      else if c = '\x7d' then
        prev { st with rest := rest, tokens := st.tokens ++ [⟨.RIGHT_BRACE, "\x7d", .none⟩] }
      else if c = '!' then
        match rest with
        | '=' :: rest' =>
          prev { st with rest := rest', tokens := st.tokens ++ [⟨.BANG_EQUAL, "!=", .none⟩] }
        | _ => prev { st with rest := rest, tokens := st.tokens ++ [⟨.BANG, "!", .none⟩] }
      else if c = '=' then
        match rest with
        | '=' :: rest' =>
          prev { st with rest := rest', tokens := st.tokens ++ [⟨.EQUAL_EQUAL, "==", .none⟩] }
        | _ => prev { st with rest := rest, tokens := st.tokens ++ [⟨.EQUAL, "=", .none⟩] }
      else if c = '<' then
        match rest with
        | '=' :: rest' =>
          prev { st with rest := rest', tokens := st.tokens ++ [⟨.LESS_EQUAL, "<=", .none⟩] }
        | _ => prev { st with rest := rest, tokens := st.tokens ++ [⟨.LESS, "<", .none⟩] }
      else if c = '>' then
        match rest with
        | '=' :: rest' =>
          prev { st with rest := rest', tokens := st.tokens ++ [⟨.GREATER_EQUAL, ">=", .none⟩] }
        | _ => prev { st with rest := rest, tokens := st.tokens ++ [⟨.GREATER, ">", .none⟩] }
      else if c.isAlpha then
        let (cs, rest') := scanIdentAux rest
        let ident := String.mk (c :: cs)
        let tok : Token :=
          match (KEYWORDS.lookup ident) with
          | some ty => ⟨ty, ident, .none⟩
          | Option.none => ⟨.IDENTIFIER, ident, .none⟩
        prev { st with rest := rest', tokens := st.tokens ++ [tok] }
      else
        -- any other character: report `INVALID_CHAR` and keep scanning
        prev { st with
          rest := rest,
          errors := st.errors ++ [(st.line, INVALID_CHAR)] }

/-- Source `Scanner.scan`'s while-loop, iterated by fuel (defined by `Nat.rec`
rather than the equation compiler so that it evaluates by kernel
reduction). -/
def scanLoop (fuel : Nat) : ScannerState → Option (List Token × List (Nat × String)) :=
  Nat.rec (fun _ => Option.none) (fun _ prev => scanLoopStep prev) fuel

/-- Source `Scanner.scan`: returns the token list (ending in EOF) and the reported
errors, or `none` on a host crash. -/
def scan (source : String) : Option (List Token × List (Nat × String)) :=
  scanLoop (source.length + 1) ⟨source.data, 1, [], []⟩

/-! ## AST (`data_types/expr.py`, `data_types/stmt.py`)

The `Variable`, `Assign` and `This` nodes carry a numeric `id` modelling Python
object identity: the resolver's `ResolvedVars` dictionary keys nodes by
identity (the source `__hash__` mixes in `id(self)`), so the embedding gives
every such node a fresh id (the parser threads a counter).

`Ternary`, `LoxList` and `LoxListIndex` are modelled from the spec: the fuller
duplicate of `expr.py` containing them is absent from the snapshot (spec
section 9 notes the duplicated modules); their field names follow the uses in
`parser.py`, `resolver.py` and `interpreter.py`. -/

/-- Payload of a `Literal` node: Python `True`/`False`/`None`/float/str. -/
inductive LitVal where
  | nil
  | bool (b : Bool)
  | num (q : ℚ)
  | str (s : String)
  deriving DecidableEq, Repr

/-- Source `Literal(self.consume_token().literal)` in `Parser.primary`: a token's
`literal` payload viewed as a runtime literal (Python `None` is Lox nil). -/
def litOfTok : TokLit → LitVal
  | .none => .nil
  | .str s => .str s
  | .num q => .num q

inductive Expr where
  | call (callee : Expr) (closing_paren : Token) (arguments : List Expr)
  | grouping (expression : Expr)
  | binary (left : Expr) (operator : Token) (right : Expr)
  | unary (operator : Token) (right_side : Expr)
  | literal (value : LitVal)
  | variableRef (id : Nat) (variable_name : Token)
  | assign (id : Nat) (variable_name : Token) (value : Expr)
  | logical (left_side : Expr) (operator : Token) (right_side : Expr)
  | getProp (property_name : Token) (obj : Expr)
  | setProp (property_name : Token) (obj : Expr) (value : Expr)
  | thisRef (id : Nat) (keyword : Token)
  | ternary (condition : Expr) (truthy : Expr) (falsy : Expr)
  | listLit (items : List Expr)
  | listIndex (lox_list : Expr) (index : Expr)
  deriving Repr

mutual
inductive Stmt where
  | expressionStmt (expression : Expr)
  | printStmt (expression : Expr)
  | varStmt (variable_name : Token) (initializer : Option Expr)
  | blockStmt (statements : List Stmt)
  | ifStmt (condition : Expr) (then_branch : Stmt) (else_branch : Option Stmt)
  | whileStmt (condition : Expr) (body : Stmt)
  | functionStmt (decl : FuncDecl)
  | returnStmt (keyword : Token) (value : Option Expr)
  | classStmt (name : Token) (methods : List FuncDecl)
  deriving Repr

/-- Source `FunctionStmt(func_name, params, body)`; split out of `Stmt` because
`LoxFunction` and class method tables store it directly. -/
inductive FuncDecl where
  | mk (func_name : Token) (params : List Token) (body : List Stmt)
  deriving Repr
end

def FuncDecl.func_name : FuncDecl → Token
  | .mk n _ _ => n

def FuncDecl.params : FuncDecl → List Token
  | .mk _ p _ => p

def FuncDecl.body : FuncDecl → List Stmt
  | .mk _ _ b => b

/-! ## Parser (`parser/parser.py`)

Recursive descent over the token list.  `PState` carries `tokens`/`pos` (and
the fresh-node-id counter); `PRes` is the result of a parsing method:
`perr` models a raised `ParseError`, `host` a Python-level `IndexError`
(`peek`/`consume_token` do not bounds-check), and `out` fuel exhaustion (an
artifact of the embedding — the source recursion terminates on the inputs the
claims exercise). -/

structure PState where
  tokens : List Token
  pos : Nat
  nextId : Nat
  deriving Repr

inductive PRes (α : Type) where
  | ok (a : α)
  | perr (token : Token) (msg : String)
  | host
  | out

def PRes.bind : PRes α → (α → PRes β) → PRes β
  | .ok a, f => f a
  | .perr t m, _ => .perr t m
  | .host, _ => .host
  | .out, _ => .out

instance : Monad PRes where
  pure := PRes.ok
  bind := PRes.bind

/-- Source `Parser.peek` (no bounds check in the source: `host` models `IndexError`). -/
def peekT (st : PState) : PRes Token :=
  match st.tokens[st.pos]? with
  | some t => .ok t
  | Option.none => .host

/-- Source `Parser.isEOF`. -/
def pIsEOF (st : PState) : PRes Bool := do
  let t ← peekT st
  pure (t.type == .EOF)

/-- Source `Parser.consume_token`. -/
def consumeTok (st : PState) : PRes (Token × PState) :=
  match st.tokens[st.pos]? with
  | some t => .ok (t, { st with pos := st.pos + 1 })
  | Option.none => .host

/-- Source `Parser.check_token_type`. -/
def checkTokenType (st : PState) (ty : TokenType) : PRes Bool := do
  let e ← pIsEOF st
  if e then pure false
  else do
    let t ← peekT st
    pure (t.type == ty)

/-- Source `Parser.next_token_matches`. -/
def nextTokenMatches (st : PState) : List TokenType → PRes Bool
  | [] => pure false
  | ty :: tys => do
    let b ← checkTokenType st ty
    if b then pure true else nextTokenMatches st tys

/-- Source `Parser.consume_token_if_matching`. -/
def consumeIfMatching (st : PState) (ty : TokenType) (msg : String) :
    PRes (Token × PState) := do
  let b ← nextTokenMatches st [ty]
  if b then consumeTok st
  else do
    let t ← peekT st
    PRes.perr t msg

/-- One iteration of `Parser.synchronize`: discard tokens until just after
the next `;`. -/
def synchronizeStep (prev : PState → PRes PState) (st : PState) : PRes PState := do
  let e ← pIsEOF st
  if e then pure st
  else do
    let (_, st) ← consumeTok st
    let b ← nextTokenMatches st [.SEMICOLON]
    if b then do
      let (_, st) ← consumeTok st
      pure st
    else prev st

/-- Source method `Parser.synchronize`, iterated by fuel. -/
def synchronize (fuel : Nat) : PState → PRes PState :=
  Nat.rec (fun _ => .out) (fun _ prev => synchronizeStep prev) fuel

/-- Allocate a fresh node id (models constructing a new Python object). -/
def freshId (st : PState) : Nat × PState :=
  (st.nextId, { st with nextId := st.nextId + 1 })

/-- The parser's recursive methods, at a given fuel level: each field is one
method of `Parser`; `mkParser p` builds the methods at fuel `n+1` from the
methods `p` at fuel `n` (the source recursion terminates on the inputs the
claims exercise; running out of fuel yields `.out`). -/
structure ParserFns where
  declaration : PState → PRes (Stmt × PState)
  varDeclaration : PState → PRes (Stmt × PState)
  classDeclaration : PState → PRes (Stmt × PState)
  classMethods : PState → PRes (List FuncDecl × PState)
  function : PState → PRes (FuncDecl × PState)
  params : PState → PRes (List Token × PState)
  statement : PState → PRes (Stmt × PState)
  returnStatement : PState → PRes (Stmt × PState)
  whileStatement : PState → PRes (Stmt × PState)
  forStatement : PState → PRes (Stmt × PState)
  ifStatement : PState → PRes (Stmt × PState)
  printStatement : PState → PRes (Stmt × PState)
  blockStatement : PState → PRes (List Stmt × PState)
  blockBody : PState → PRes (List Stmt × PState)
  expressionStatement : PState → PRes (Stmt × PState)
  expression : PState → PRes (Expr × PState)
  assignment : PState → PRes (Expr × PState)
  ternary : PState → PRes (Expr × PState)
  logicOr : PState → PRes (Expr × PState)
  logicOrLoop : Expr → PState → PRes (Expr × PState)
  logicAnd : PState → PRes (Expr × PState)
  logicAndLoop : Expr → PState → PRes (Expr × PState)
  equality : PState → PRes (Expr × PState)
  equalityLoop : Expr → PState → PRes (Expr × PState)
  comparison : PState → PRes (Expr × PState)
  comparisonLoop : Expr → PState → PRes (Expr × PState)
  term : PState → PRes (Expr × PState)
  termLoop : Expr → PState → PRes (Expr × PState)
  factor : PState → PRes (Expr × PState)
  factorLoop : Expr → PState → PRes (Expr × PState)
  unary : PState → PRes (Expr × PState)
  call : PState → PRes (Expr × PState)
  callLoop : Expr → PState → PRes (Expr × PState)
  finishCall : Expr → PState → PRes (Expr × PState)
  args : PState → PRes (List Expr × PState)
  grouping : PState → PRes (Expr × PState)
  loxListIndex : PState → PRes (Expr × PState)
  loxListIndexLoop : Expr → PState → PRes (Expr × PState)
  loxList : PState → PRes (Expr × PState)
  listItems : PState → PRes (List Expr × PState)
  primary : PState → PRes (Expr × PState)

/-- The fuel-exhausted parser: every method yields `.out`. -/
def outParser : ParserFns where
  declaration := fun _ => .out
  varDeclaration := fun _ => .out
  classDeclaration := fun _ => .out
  classMethods := fun _ => .out
  function := fun _ => .out
  params := fun _ => .out
  statement := fun _ => .out
  returnStatement := fun _ => .out
  whileStatement := fun _ => .out
  forStatement := fun _ => .out
  ifStatement := fun _ => .out
  printStatement := fun _ => .out
  blockStatement := fun _ => .out
  blockBody := fun _ => .out
  expressionStatement := fun _ => .out
  expression := fun _ => .out
  assignment := fun _ => .out
  ternary := fun _ => .out
  logicOr := fun _ => .out
  logicOrLoop := fun _ _ => .out
  logicAnd := fun _ => .out
  logicAndLoop := fun _ _ => .out
  equality := fun _ => .out
  equalityLoop := fun _ _ => .out
  comparison := fun _ => .out
  comparisonLoop := fun _ _ => .out
  term := fun _ => .out
  termLoop := fun _ _ => .out
  factor := fun _ => .out
  factorLoop := fun _ _ => .out
  unary := fun _ => .out
  call := fun _ => .out
  callLoop := fun _ _ => .out
  finishCall := fun _ _ => .out
  args := fun _ => .out
  grouping := fun _ => .out
  loxListIndex := fun _ => .out
  loxListIndexLoop := fun _ _ => .out
  loxList := fun _ => .out
  listItems := fun _ => .out
  primary := fun _ => .out

def mkParser (p : ParserFns) : ParserFns where
  -- `Parser.declaration`.
  declaration := fun st => do
      let b ← nextTokenMatches st [.VAR]
      if b then do
        let (_, st) ← consumeTok st
        p.varDeclaration st
      else do
        let b ← nextTokenMatches st [.FUN]
        if b then do
          let (_, st) ← consumeTok st
          let (f, st) ← p.function st
          pure (.functionStmt f, st)
        else do
          let b ← nextTokenMatches st [.CLASS]
          if b then do
            let (_, st) ← consumeTok st
            p.classDeclaration st
          else p.statement st
  -- `Parser.varDeclaration`.
  varDeclaration := fun st => do
      let (variable_name, st) ← consumeIfMatching st .IDENTIFIER "Expect variable name."
      let b ← nextTokenMatches st [.EQUAL]
      if b then do
        let (_, st) ← consumeTok st
        let (initializer, st) ← p.expression st
        let (_, st) ← consumeIfMatching st .SEMICOLON
          "Expect \x27;\x27 after variable declaration."
        pure (.varStmt variable_name (some initializer), st)
      else do
        let (_, st) ← consumeIfMatching st .SEMICOLON
          "Expect \x27;\x27 after variable declaration."
        pure (.varStmt variable_name Option.none, st)
  -- `Parser.classDeclaration`.
  classDeclaration := fun st => do
      let (class_name, st) ← consumeIfMatching st .IDENTIFIER "Expect class name."
      let (_, st) ← consumeIfMatching st .LEFT_BRACE "Expect \x27\x7b\x27 after class name."
      let (methods, st) ← p.classMethods st
      let (_, st) ← consumeIfMatching st .RIGHT_BRACE "Expect \x27\x7d\x27 after class body."
      pure (.classStmt class_name methods, st)
  -- The method-collecting while-loop inside `Parser.classDeclaration`.
  classMethods := fun st => do
      let b ← nextTokenMatches st [.RIGHT_BRACE]
      let e ← pIsEOF st
      if ¬ b ∧ ¬ e then do
        let (m, st) ← p.function st
        let (ms, st) ← p.classMethods st
        pure (m :: ms, st)
      else pure ([], st)
  -- `Parser.function`.
  function := fun st => do
      let (func_name, st) ← consumeIfMatching st .IDENTIFIER "Expect function name."
      let (_, st) ← consumeIfMatching st .LEFT_PAREN "Expect \x27(\x27 after function name."
      let b ← nextTokenMatches st [.RIGHT_PAREN]
      let (parameters, st) ←
        if b then pure ([], st)
        else do
          let (prm, st) ← consumeIfMatching st .IDENTIFIER "Expect parameter name."
          let (ps, st) ← p.params st
          pure (prm :: ps, st)
      let (_, st) ← consumeIfMatching st .RIGHT_PAREN "Expect \x27)\x27 after parameters."
      let (body, st) ← p.blockStatement st
      pure (.mk func_name parameters body, st)
  -- The comma-separated-parameters loop inside `Parser.function`.
  params := fun st => do
      let b ← nextTokenMatches st [.COMMA]
      if b then do
        let (_, st) ← consumeTok st
        let (prm, st) ← consumeIfMatching st .IDENTIFIER "Expect parameter name."
        let (ps, st) ← p.params st
        pure (prm :: ps, st)
      else pure ([], st)
  -- `Parser.statement`.
  statement := fun st => do
      let b ← nextTokenMatches st [.WHILE]
      if b then p.whileStatement st
      else do
      let b ← nextTokenMatches st [.FOR]
      if b then p.forStatement st
      else do
      let b ← nextTokenMatches st [.IF]
      if b then p.ifStatement st
      else do
      let b ← nextTokenMatches st [.PRINT]
      if b then p.printStatement st
      else do
      let b ← nextTokenMatches st [.LEFT_BRACE]
      if b then do
        let (statements, st) ← p.blockStatement st
        pure (.blockStmt statements, st)
      else do
      let b ← nextTokenMatches st [.RETURN]
      if b then p.returnStatement st
      else p.expressionStatement st
  -- `Parser.returnStatement`.
  returnStatement := fun st => do
      let (return_keyword, st) ← consumeTok st
      let b ← nextTokenMatches st [.SEMICOLON]
      if b then do
        let (_, st) ← consumeIfMatching st .SEMICOLON "Expect \x27;\x27 after return value."
        pure (.returnStmt return_keyword Option.none, st)
      else do
        let (value, st) ← p.expression st
        let (_, st) ← consumeIfMatching st .SEMICOLON "Expect \x27;\x27 after return value."
        pure (.returnStmt return_keyword (some value), st)
  -- `Parser.whileStatement`.
  whileStatement := fun st => do
      let (_, st) ← consumeTok st
      let (_, st) ← consumeIfMatching st .LEFT_PAREN MISSING_WHILE_OPEN_BRACKET
      let (condition_expr, st) ← p.expression st
      let (_, st) ← consumeIfMatching st .RIGHT_PAREN MISSING_WHILE_CLOSE_BRACKET
      let (body, st) ← p.statement st
      pure (.whileStmt condition_expr body, st)
  -- `Parser.forStatement` (desugars to blocks/while per the source).
  forStatement := fun st => do
      let (_, st) ← consumeTok st
      let (_, st) ← consumeIfMatching st .LEFT_PAREN MISSING_FOR_OPEN_BRACE
      let b ← nextTokenMatches st [.SEMICOLON]
      let (initializer, st) ←
        if b then do
          let (_, st) ← consumeTok st
          pure ((Option.none : Option Stmt), st)
        else do
          let b ← nextTokenMatches st [.VAR]
          if b then do
            let (_, st) ← consumeTok st
            let (s, st) ← p.varDeclaration st
            pure (some s, st)
          else do
            let (s, st) ← p.expressionStatement st
            pure (some s, st)
      let t ← peekT st
      let (condition, st) ←
        if t.type ≠ .SEMICOLON then do
          let (c, st) ← p.expression st
          pure (some c, st)
        else pure ((Option.none : Option Expr), st)
      let (_, st) ← consumeIfMatching st .SEMICOLON MISSING_SEMICOLON_IN_FOR_LOOP_CONDITION
      let t ← peekT st
      let (increment, st) ←
        if t.type ≠ .RIGHT_PAREN then do
          let (i, st) ← p.expression st
          pure (some i, st)
        else pure ((Option.none : Option Expr), st)
      let (_, st) ← consumeIfMatching st .RIGHT_PAREN MISSING_FOR_CLOSE_BRACE
      let (body, st) ← p.statement st
      let body := match increment with
        | some inc => Stmt.blockStmt [body, .expressionStmt inc]
        | Option.none => body
      let condition := match condition with
        | some c => c
        | Option.none => Expr.literal (.bool true)
      let body := Stmt.whileStmt condition body
      let body := match initializer with
        | some ini => Stmt.blockStmt [ini, body]
        | Option.none => body
      pure (body, st)
  -- `Parser.ifStatement`.
  ifStatement := fun st => do
      let (_, st) ← consumeTok st
      let (_, st) ← consumeIfMatching st .LEFT_PAREN MISSING_IF_OPEN_BRACKET
      let (condition_expr, st) ← p.expression st
      let (_, st) ← consumeIfMatching st .RIGHT_PAREN MISSING_IF_CLOSE_BRACKET
      let (then_branch, st) ← p.statement st
      let b ← nextTokenMatches st [.ELSE]
      if b then do
        let (_, st) ← consumeTok st
        let (else_branch, st) ← p.statement st
        pure (.ifStmt condition_expr then_branch (some else_branch), st)
      else pure (.ifStmt condition_expr then_branch Option.none, st)
  -- `Parser.printStatement`.
  printStatement := fun st => do
      let (_, st) ← consumeTok st
      let (value_to_print, st) ← p.expression st
      let (_, st) ← consumeIfMatching st .SEMICOLON MISSING_SEMICOLON
      pure (.printStmt value_to_print, st)
  -- `Parser.blockStatement` (returns the bare statement list).
  blockStatement := fun st => do
      let (_, st) ← consumeTok st
      let (statements, st) ← p.blockBody st
      let (_, st) ← consumeIfMatching st .RIGHT_BRACE MISSING_CLOSING_BRACE
      pure (statements, st)
  -- The declaration-collecting while-loop inside `Parser.blockStatement`.
  blockBody := fun st => do
      let b ← nextTokenMatches st [.RIGHT_BRACE]
      let e ← pIsEOF st
      if ¬ b ∧ ¬ e then do
        let (s, st) ← p.declaration st
        let (ss, st) ← p.blockBody st
        pure (s :: ss, st)
      else pure ([], st)
  -- `Parser.expressionStatement`.
  expressionStatement := fun st => do
      let (value, st) ← p.expression st
      let (_, st) ← consumeIfMatching st .SEMICOLON MISSING_SEMICOLON
      pure (.expressionStmt value, st)
  -- `Parser.expression`.
  expression := fun st => p.assignment st
  -- `Parser.assignment` (including the l-value rewrite).
  assignment := fun st => do
      let (expr, st) ← p.ternary st
      let b ← nextTokenMatches st [.EQUAL]
      if b then do
        let (equals, st) ← consumeTok st
        let (value, st) ← p.assignment st
        match expr with
        | .variableRef _ variable_name =>
          let (i, st) := freshId st
          pure (.assign i variable_name value, st)
        | .getProp property_name obj =>
          pure (.setProp property_name obj value, st)
        | _ => PRes.perr equals INVALID_ASSIGNMENT
      else pure (expr, st)
  -- `Parser.ternary`.
  ternary := fun st => do
      let (expr, st) ← p.logicOr st
      let b ← nextTokenMatches st [.QUESTION]
      if b then do
        let (_, st) ← consumeTok st
        let (truthy, st) ← p.ternary st
        let (_, st) ← consumeIfMatching st .COLON
          "Expect \x27:\x27 after ternary truthy expression."
        let (falsy, st) ← p.ternary st
        pure (.ternary expr truthy falsy, st)
      else pure (expr, st)
  -- `Parser.logic_or`.
  logicOr := fun st => do
      let (expr, st) ← p.logicAnd st
      p.logicOrLoop expr st
  logicOrLoop := fun expr st => do
      let b ← nextTokenMatches st [.OR]
      if b then do
        let (operator, st) ← consumeTok st
        let (right, st) ← p.logicAnd st
        p.logicOrLoop (.logical expr operator right) st
      else pure (expr, st)
  -- `Parser.logic_and`.
  logicAnd := fun st => do
      let (expr, st) ← p.equality st
      p.logicAndLoop expr st
  logicAndLoop := fun expr st => do
      let b ← nextTokenMatches st [.AND]
      if b then do
        let (operator, st) ← consumeTok st
        let (right, st) ← p.equality st
        p.logicAndLoop (.logical expr operator right) st
      else pure (expr, st)
  -- `Parser.equality`.
  equality := fun st => do
      let (expr, st) ← p.comparison st
      p.equalityLoop expr st
  equalityLoop := fun expr st => do
      let b ← nextTokenMatches st [.BANG_EQUAL, .EQUAL_EQUAL]
      if b then do
        let (operator, st) ← consumeTok st
        let (right, st) ← p.comparison st
        p.equalityLoop (.binary expr operator right) st
      else pure (expr, st)
  -- `Parser.comparison`.
  comparison := fun st => do
      let (expr, st) ← p.term st
      p.comparisonLoop expr st
  comparisonLoop := fun expr st => do
      let b ← nextTokenMatches st [.LESS, .LESS_EQUAL, .GREATER, .GREATER_EQUAL]
      if b then do
        let (operator, st) ← consumeTok st
        let (right, st) ← p.term st
        p.comparisonLoop (.binary expr operator right) st
      else pure (expr, st)
  -- `Parser.term`.
  term := fun st => do
      let (expr, st) ← p.factor st
      p.termLoop expr st
  termLoop := fun expr st => do
      let b ← nextTokenMatches st [.MINUS, .PLUS]
      if b then do
        let (operator, st) ← consumeTok st
        let (right, st) ← p.factor st
        p.termLoop (.binary expr operator right) st
      else pure (expr, st)
   -- `Parser.factor`.  Note: the right operand is parsed with `primary`, not
  -- `unary` — faithful to the source (spec section 9 documents this quirk).
  factor := fun st => do
      let (expr, st) ← p.unary st
      p.factorLoop expr st
  factorLoop := fun expr st => do
      let b ← nextTokenMatches st [.SLASH, .STAR]
      if b then do
        let (operator, st) ← consumeTok st
        let (right, st) ← p.primary st
        p.factorLoop (.binary expr operator right) st
      else pure (expr, st)
  -- `Parser.unary`.
  unary := fun st => do
      let b ← nextTokenMatches st [.BANG, .MINUS]
      if b then do
        let (operator, st) ← consumeTok st
        let (right, st) ← p.unary st
        pure (.unary operator right, st)
      else p.call st
  -- `Parser.call`.
  call := fun st => do
      let (expr, st) ← p.grouping st
      p.callLoop expr st
  callLoop := fun expr st => do
      let b ← nextTokenMatches st [.LEFT_PAREN]
      if b then do
        let (_, st) ← consumeTok st
        let (expr, st) ← p.finishCall expr st
        p.callLoop expr st
      else do
        let b ← nextTokenMatches st [.DOT]
        if b then do
          let (_, st) ← consumeTok st
          let (property_name, st) ← consumeIfMatching st .IDENTIFIER
            "Expect property name after \x27.\x27."
          p.callLoop (.getProp property_name expr) st
        else pure (expr, st)
  -- `Parser.finish_call` (the `(` has already been consumed).
  finishCall := fun callee st => do
      let b ← nextTokenMatches st [.RIGHT_PAREN]
      let (arguments, st) ←
        if b then pure ([], st)
        else do
          let (a, st) ← p.expression st
          let (args, st) ← p.args st
          pure (a :: args, st)
      let (closing_paren, st) ← consumeIfMatching st .RIGHT_PAREN
        "Expect \x27)\x27 after arguments."
      pure (.call callee closing_paren arguments, st)
  -- The comma-separated-arguments loop inside `Parser.finish_call`.
  args := fun st => do
      let b ← nextTokenMatches st [.COMMA]
      if b then do
        let (_, st) ← consumeTok st
        let (a, st) ← p.expression st
        let (args, st) ← p.args st
        pure (a :: args, st)
      else pure ([], st)
  -- `Parser.grouping`.
  grouping := fun st => do
      let b ← nextTokenMatches st [.LEFT_PAREN]
      if b then do
        let (_, st) ← consumeTok st
        let (expr, st) ← p.expression st
        let (_, st) ← consumeIfMatching st .RIGHT_PAREN "Expect \x27)\x27 after expression."
        pure (.grouping expr, st)
      else p.loxListIndex st
  -- `Parser.lox_list_index`.
  loxListIndex := fun st => do
      let (expr, st) ← p.loxList st
      p.loxListIndexLoop expr st
   -- The while-loop inside `Parser.lox_list_index`; note the source falls
  -- through from the `(`-branch into the `[`-test (the first `if` is not followed
  -- by `else`).
  loxListIndexLoop := fun expr st => do
      let b ← nextTokenMatches st [.LEFT_PAREN]
      let (expr, st) ←
        if b then do
          let (_, st) ← consumeTok st
          p.finishCall expr st
        else pure (expr, st)
      let b ← nextTokenMatches st [.LEFT_BRACKET]
      if b then do
        let (_, st) ← consumeTok st
        let (index, st) ← p.logicOr st
        let (_, st) ← consumeIfMatching st .RIGHT_BRACKET "Expect \x27]\x27 after list index."
        p.loxListIndexLoop (.listIndex expr index) st
      else pure (expr, st)
  -- `Parser.lox_list`.
  loxList := fun st => do
      let b ← nextTokenMatches st [.LEFT_BRACKET]
      if b then do
        let (_, st) ← consumeTok st
        let b ← nextTokenMatches st [.RIGHT_BRACKET]
        let (items, st) ←
          if b then pure ([], st)
          else do
            let (i, st) ← p.logicOr st
            let (is, st) ← p.listItems st
            pure (i :: is, st)
        let (_, st) ← consumeIfMatching st .RIGHT_BRACKET "Expect \x27]\x27 after list expression."
        pure (.listLit items, st)
      else p.primary st
  -- The comma-separated-items loop inside `Parser.lox_list`.
  listItems := fun st => do
      let b ← nextTokenMatches st [.COMMA]
      if b then do
        let (_, st) ← consumeTok st
        let (i, st) ← p.logicOr st
        let (is, st) ← p.listItems st
        pure (i :: is, st)
      else pure ([], st)
  -- `Parser.primary`.
  primary := fun st => do
      let b ← nextTokenMatches st [.TRUE]
      if b then do
        let (_, st) ← consumeTok st
        pure (.literal (.bool true), st)
      else do
      let b ← nextTokenMatches st [.FALSE]
      if b then do
        let (_, st) ← consumeTok st
        pure (.literal (.bool false), st)
      else do
      let b ← nextTokenMatches st [.NIL]
      if b then do
        let (_, st) ← consumeTok st
        pure (.literal .nil, st)
      else do
      let b ← nextTokenMatches st [.IDENTIFIER]
      if b then do
        let (t, st) ← consumeTok st
        let (i, st) := freshId st
        pure (.variableRef i t, st)
      else do
      let b ← nextTokenMatches st [.NUMBER, .STRING]
      if b then do
        let (t, st) ← consumeTok st
        pure (.literal (litOfTok t.literal), st)
      else do
      let b ← nextTokenMatches st [.THIS]
      if b then do
        let (t, st) ← consumeTok st
        let (i, st) := freshId st
        pure (.thisRef i t, st)
      else do
        let (t, _) ← consumeTok st
        PRes.perr t "Expect expression."

/-- The parser methods with `fuel` levels available (`Nat.rec` so that it
evaluates by kernel reduction). -/
def parserAt (fuel : Nat) : ParserFns :=
  Nat.rec outParser (fun _ prev => mkParser prev) fuel

/-- One iteration of `Parser.parse`'s while-loop: parse declarations until
EOF, catching `ParseError` by synchronizing and recording the message (the
source reports every parse error at line 1).  The fuel level is shared with
the parser methods. -/
def parseLoopStep (fns : ParserFns) (sync : PState → PRes PState)
    (prev : PState → List Stmt → List (Nat × String) →
      Option (List Stmt × List (Nat × String) × PState))
    (st : PState) (acc : List Stmt) (errs : List (Nat × String)) :
    Option (List Stmt × List (Nat × String) × PState) :=
  match pIsEOF st with
  | .ok true => some (acc, errs, st)
  | .ok false =>
    match fns.declaration st with
    | .ok (s, st) => prev st (acc ++ [s]) errs
    | .perr _ msg =>
      match sync st with
      | .ok st => prev st acc (errs ++ [(1, msg)])
      | _ => Option.none
    | _ => Option.none
  | _ => Option.none

/-- Main loop of `Parser.parse`, iterated by fuel. -/
def parseLoop (fuel : Nat) : PState → List Stmt → List (Nat × String) →
    Option (List Stmt × List (Nat × String) × PState) :=
  Nat.rec (fun _ _ _ => Option.none)
    (fun n prev => parseLoopStep (parserAt n) (synchronize n) prev) fuel

/-- Source `Parser.parse`: `none` models a Python-level crash (or fuel exhaustion). -/
def parseTokens (tokens : List Token) : Option (List Stmt × List (Nat × String)) :=
  match parseLoop (200 * (tokens.length + 1)) ⟨tokens, 0, 0⟩ [] [] with
  | some (stmts, errs, _) => some (stmts, errs)
  | Option.none => Option.none

/-! ## Resolver (`resolver/resolver.py`)

`scopes` models the `Stack[Scope]` (`data_types/stack.py`): index 0 is the
bottom of the stack, the last element is the top (`peek`).  A `Scope` is a
Python dict `identifier → bool`; `ResolvedVars` is the dict keyed by node
identity, modelled as an association list over node ids where writing an
existing key overwrites it. -/

inductive FunctionType where
  | NONE | FUNCTION | INITIALIZER | METHOD
  deriving DecidableEq, Repr

abbrev Scope := List (String × Bool)

/-- Python dict assignment `d[k] = v`: overwrite in place, or append. -/
def dictSet (k : String) (v : Bool) : Scope → Scope
  | [] => [(k, v)]
  | (k', v') :: rest =>
    if k' = k then (k, v) :: rest else (k', v') :: dictSet k v rest

abbrev RMap := List (Nat × Nat)

/-- Source `self.resolved_local_vars[expr] = depth` (keyed by node id). -/
def rmapSet (k v : Nat) : RMap → RMap
  | [] => [(k, v)]
  | (k', v') :: rest =>
    if k' = k then (k, v) :: rest else (k', v') :: rmapSet k v rest

structure RState where
  scopes : List Scope
  resolved_local_vars : RMap
  current_function : FunctionType
  errors : List (Nat × String)
  deriving Repr

def RState.peekScope (st : RState) : Option Scope := st.scopes.getLast?

/-- Replace the top scope (mutation of the peeked dict). -/
def RState.setTopScope (st : RState) (s : Scope) : RState :=
  { st with scopes := st.scopes.dropLast ++ [s] }

/-- Source `Resolver.declare`. -/
def rDeclare (variable_name : Token) (st : RState) : RState :=
  match st.peekScope with
  | Option.none => st
  | some current_scope =>
    let st :=
      if (current_scope.lookup variable_name.lexeme).isSome then
        { st with errors := st.errors ++
            [(1, "Already a variable with this name in this scope.")] }
      else st
    st.setTopScope (dictSet variable_name.lexeme false current_scope)

/-- Source `Resolver.define`. -/
def rDefine (variable_name : Token) (st : RState) : RState :=
  match st.peekScope with
  | Option.none => st
  | some current_scope =>
    st.setTopScope (dictSet variable_name.lexeme true current_scope)

def rBeginScope (st : RState) : RState :=
  { st with scopes := st.scopes ++ [[]] }

def rEndScope (st : RState) : RState :=
  { st with scopes := st.scopes.dropLast }

/-- The while-loop of `Resolver.resolve_local`, walking `index` from the top
of the stack down to 0.  The argument is `index + 1` (0 means the loop has
ended).  Faithful to the source: there is no early exit on a hit, so a later
(outer-scope) hit overwrites an earlier (inner-scope) one. -/
def resolveLocalAux (scopes : List Scope) (lexeme : String) (nodeId : Nat) :
    Nat → RMap → RMap
  | 0, m => m
  | i + 1, m =>
    let m :=
      match scopes[i]? with
      | some scope =>
        if (scope.lookup lexeme).isSome then
          rmapSet nodeId (scopes.length - 1 - i) m
        else m
      | Option.none => m
    resolveLocalAux scopes lexeme nodeId i m

/-- Source `Resolver.resolve_local`. -/
def rResolveLocal (nodeId : Nat) (variable_name : Token) (st : RState) : RState :=
  let m := resolveLocalAux st.scopes variable_name.lexeme nodeId
    st.scopes.length st.resolved_local_vars
  { st with resolved_local_vars := m }

structure ResolverFns where
  rStmt : Stmt → RState → Option RState
  rStmts : List Stmt → RState → Option RState
  rMethods : List FuncDecl → RState → Option RState
  rFunction : FuncDecl → FunctionType → RState → Option RState
  rExpr : Expr → RState → Option RState
  rExprs : List Expr → RState → Option RState

/-- The fuel-exhausted level: every method gives up. -/
def outResolver : ResolverFns where
  rStmt := fun _ _ => Option.none
  rStmts := fun _ _ => Option.none
  rMethods := fun _ _ => Option.none
  rFunction := fun _ _ _ => Option.none
  rExpr := fun _ _ => Option.none
  rExprs := fun _ _ => Option.none

def mkResolver (r : ResolverFns) : ResolverFns where
  -- Statement dispatch of the resolver's visitor.
  rStmt := fun s st =>
      match s with
      | .blockStmt statements => do
        let st ← r.rStmts statements (rBeginScope st)
        pure (rEndScope st)
      | .functionStmt decl =>
        let st := rDefine decl.func_name (rDeclare decl.func_name st)
        r.rFunction decl .FUNCTION st
      | .varStmt variable_name initializer => do
        let st := rDeclare variable_name st
        let st ← match initializer with
          | some ini => r.rExpr ini st
          | Option.none => pure st
        pure (rDefine variable_name st)
      | .expressionStmt e => r.rExpr e st
      | .ifStmt condition then_branch else_branch => do
        let st ← r.rExpr condition st
        let st ← r.rStmt then_branch st
        match else_branch with
        | some e => r.rStmt e st
        | Option.none => pure st
      | .printStmt e => r.rExpr e st
      | .returnStmt _ value =>
        let st :=
          if st.current_function = .NONE then
            { st with errors := st.errors ++
                [(1, "Can\x27t return from top-level code.")] }
          else st
        match value with
        | some v =>
          let st :=
            if st.current_function = .INITIALIZER then
              { st with errors := st.errors ++
                  [(1, "Can\x27t return a value from an initializer.")] }
            else st
          r.rExpr v st
        | Option.none => some st
      | .whileStmt condition body => do
        let st ← r.rExpr condition st
        r.rStmt body st
      | .classStmt name methods => do
        let st := rDefine name (rDeclare name st)
        let st := rBeginScope st
        let st := match st.peekScope with
          | some sc => st.setTopScope (dictSet "this" true sc)
          | Option.none => st
        let st ← r.rMethods methods st
        pure (rEndScope st)
  -- `Resolver.resolve` over a statement list.
  rStmts := fun a0 a1 => match a0, a1 with
    | [], st => some st
    | s :: rest, st => do
        let st ← r.rStmt s st
        r.rStmts rest st
  -- The method loop of `Resolver.visitClassStmt` (init methods resolve as
  -- `INITIALIZER`, others as `METHOD`).
  rMethods := fun a0 a1 => match a0, a1 with
    | [], st => some st
    | m :: rest, st => do
        let st ←
          if m.func_name.lexeme = "init" then r.rFunction m .INITIALIZER st
          else r.rFunction m .METHOD st
        r.rMethods rest st
  -- `Resolver.resolve_function`.
  rFunction := fun f function_type st => do
      let enclosing := st.current_function
      let st := { st with current_function := function_type }
      let st := rBeginScope st
      let st := f.params.foldl (fun st p => rDefine p (rDeclare p st)) st
      let st ← r.rStmts f.body st
      let st := rEndScope st
      pure { st with current_function := enclosing }
  -- Expression dispatch of the resolver's visitor.
  rExpr := fun e st =>
      match e with
      | .variableRef id variable_name =>
        let st :=
          match st.peekScope with
          | some current_scope =>
            -- `current_scope.get(lexeme) == False`: present and still false
            if current_scope.lookup variable_name.lexeme = some false then
              { st with errors := st.errors ++
                  [(1, "Can\x27t read local variable in its own initializer.")] }
            else st
          | Option.none => st
        some (rResolveLocal id variable_name st)
      | .assign id variable_name value => do
        let st ← r.rExpr value st
        pure (rResolveLocal id variable_name st)
      | .grouping inner => r.rExpr inner st
      | .binary left _ right => do
        let st ← r.rExpr left st
        r.rExpr right st
      | .unary _ right_side => r.rExpr right_side st
      | .literal _ => some st
      | .logical left_side _ right_side => do
        let st ← r.rExpr left_side st
        r.rExpr right_side st
      | .call callee _ arguments => do
        let st ← r.rExpr callee st
        r.rExprs arguments st
      | .thisRef id keyword => some (rResolveLocal id keyword st)
      | .getProp _ obj => r.rExpr obj st
      | .setProp _ obj value => do
        let st ← r.rExpr obj st
        r.rExpr value st
      | .ternary condition truthy falsy => do
        let st ← r.rExpr condition st
        let st ← r.rExpr truthy st
        r.rExpr falsy st
      | .listIndex _ index =>
        -- `visitLoxListIndexExpr` resolves only `expr.index` in the source
        r.rExpr index st
      | .listLit items => r.rExprs items st
  rExprs := fun a0 a1 => match a0, a1 with
    | [], st => some st
    | e :: rest, st => do
        let st ← r.rExpr e st
        r.rExprs rest st

/-- The resolver's recursive visitor methods with `fuel` levels available
(`Nat.rec` so that it evaluates by kernel reduction). -/
def resolverAt (fuel : Nat) : ResolverFns :=
  Nat.rec outResolver (fun _ prev => mkResolver prev) fuel

/-- Source `Resolver.resolve` from a fresh resolver: returns the resolved-variable
map and the reported errors (`none` = fuel exhaustion, an embedding
artifact — the source traversal always terminates). -/
def resolveProgram (fuel : Nat) (statements : List Stmt) :
    Option (RMap × List (Nat × String)) :=
  match (resolverAt fuel).rStmts statements ⟨[], [], .NONE, []⟩ with
  | some st => some (st.resolved_local_vars, st.errors)
  | Option.none => Option.none

/-! ## Runtime values and heap

Python objects are mutable and shared by reference, so the embedding carries
explicit heaps: `envs` (Environment frames), `insts` (`LoxInstance`s) and
`listHeap` (`LoxListInstance` backing lists), each addressed by its index.
`Value` mirrors the dynamic `object` that interpreter methods pass around,
including the raw `Token` / `Expr` that the placeholder `visitUnaryExpr` /
`visitGroupingExpr` return. -/

/-- Source `LoxFunction`: a function declaration plus the environment (id) captured
at declaration time. -/
structure LoxFunctionV where
  func_declaration : FuncDecl
  closure : Nat
  deriving Repr

/-- Source `LoxClass`: name and method table (`Dict[str, LoxFunction]`). -/
structure LoxClassV where
  class_name : String
  methods : List (String × LoxFunctionV)
  deriving Repr

inductive Value where
  | nil
  | bool (b : Bool)
  | num (q : ℚ)
  | str (s : String)
  | function (f : LoxFunctionV)
  | cls (c : LoxClassV)
  | instanceRef (i : Nat)
  | listRef (l : Nat)
  | clock
  | appendMethod (l : Nat)
  | deleteMethod (l : Nat)
  | tokenVal (t : Token)
  | astVal (e : Expr)
  deriving Repr

/-- An `Environment`: a dict of bindings plus the parent link
(`None` only for the global frame). -/
structure EnvFrame where
  values : List (String × Value)
  parent_env : Option Nat
  deriving Repr

/-- A `LoxInstance`: its class and its field dict.  Faithful to the source,
`instance_properties` is keyed by the whole `Token` (as `LoxInstance.get`/`set`
do), not by the lexeme; `Token` equality compares `(type, lexeme, literal)`. -/
structure InstObj where
  lox_class : LoxClassV
  instance_properties : List (Token × Value)
  deriving Repr

structure IState where
  envs : List EnvFrame
  insts : List InstObj
  listHeap : List (List Value)
  environment : Nat
  globalsId : Nat
  resolved_local_vars : RMap
  output : List String
  deriving Repr

/-- Python dict assignment for environment bindings. -/
def vdictSet (k : String) (v : Value) : List (String × Value) → List (String × Value)
  | [] => [(k, v)]
  | (k', v') :: rest =>
    if k' = k then (k, v) :: rest else (k', v') :: vdictSet k v rest

/-- Python dict assignment for the token-keyed instance-field dict. -/
def tdictSet (k : Token) (v : Value) : List (Token × Value) → List (Token × Value)
  | [] => [(k, v)]
  | (k', v') :: rest =>
    if k' = k then (k, v) :: rest else (k', v') :: tdictSet k v rest

def tdictLookup (k : Token) : List (Token × Value) → Option Value
  | [] => Option.none
  | (k', v') :: rest => if k' = k then some v' else tdictLookup k rest

/-- Result of an interpreter method: `err` is a raised `LoxRuntimeError`,
`ret` a raised `ReturnException`, `host` any other Python exception
(`AttributeError`, `KeyError`, `IndexError`, a failed `assert`, bare
`RuntimeError`), `out` fuel exhaustion (embedding artifact). -/
inductive Res (α : Type) where
  | ok (a : α)
  | err (token : Token) (msg : String)
  | ret (v : Value)
  | host (msg : String)
  | out

/-! ### `interpreter/helpers.py` -/

/-- Source `Interpreter.is_truthy`: `None` and `False` are falsy, everything else
truthy (a Python `float`/`str` is never a `bool`). -/
def is_truthy : Value → Bool
  | .nil => false
  | .bool b => b
  | _ => true

/-- Python `==` on the runtime representations (`a == b` in `is_equal`).
Python's `bool` is an `int` subclass, so booleans compare numerically with
floats; strings compare by content; `None` equals only `None`; instances and
lists (no `__eq__` overrides) compare by object identity.  Two distinct
callable objects also compare by identity; the embedding returns `false`
there (no claim compares callables, where structurally identical copies of
one object would be indistinguishable). -/
def pyEq : Value → Value → Bool
  | .nil, .nil => true
  | .bool a, .bool b => a == b
  | .bool a, .num q => (if a then (1 : ℚ) else 0) == q
  | .num q, .bool b => q == (if b then (1 : ℚ) else 0)
  | .num a, .num b => a == b
  | .str a, .str b => a == b
  | .instanceRef i, .instanceRef j => i == j
  | .listRef i, .listRef j => i == j
  | _, _ => false

/-- Source `helpers.is_equal`. -/
def is_equal : Value → Value → Bool
  | .nil, .nil => true
  | .nil, _ => false
  | a, b => pyEq a b

/-- Long-division digits of `rem / den`, most significant first. -/
def fracDigits : Nat → Nat → Nat → List Nat
  | 0, _, _ => []
  | k + 1, rem, den =>
    if rem = 0 then []
    else (rem * 10) / den :: fracDigits k ((rem * 10) % den) den

/-- Decimal rendering of a rational whose denominator divides a power of 10
(every terminating float does); used for Python's `str(float)`.  Works on the
raw numerator/denominator so that it evaluates by kernel reduction. -/
def decimalString (q : ℚ) : String :=
  let sign := if q.num < 0 then "-" else ""
  let n := q.num.natAbs
  let d := q.den
  let ip := n / d
  let rem := n % d
  if rem = 0 then sign ++ toString ip ++ ".0"
  else
    sign ++ toString ip ++ "." ++ String.join ((fracDigits 30 rem d).map toString)

/-- Python `text.endswith(".0")`. -/
def pyEndsWithDotZero (s : String) : Bool :=
  match s.data.reverse with
  | '0' :: '.' :: _ => true
  | _ => false

/-- Source `helpers.stringify`.  Needs the state to render list contents (Python
follows the object reference).  The `repr` of an AST node returned by the
grouping placeholder is not modelled (no claim prints one). -/
def stringify (st : IState) : Value → String
  | .nil => "nil"
  | .num q =>
    -- str(float), stripping a trailing ".0": `text.endswith(".0")` and
    -- `text.split(".")[0]`, expressed on the character list
    let text := decimalString q
    if pyEndsWithDotZero text then String.mk (text.data.takeWhile (fun c => c ≠ '.'))
    else text
  | .bool b => if b then "True" else "False"  -- Python str(True)
  | .str s => s
  | .function f => "<fn " ++ f.func_declaration.func_name.lexeme ++ ">"
  | .cls c => c.class_name
  | .instanceRef i =>
    match st.insts[i]? with
    | some o => o.lox_class.class_name ++ " instance"
    | Option.none => "instance"
  | .listRef l =>
    match st.listHeap[l]? with
    | some xs =>
      let item : Value → String := fun v =>
        match v with
        | .num q => decimalString q
        | .str s => "\x27" ++ s ++ "\x27"
        | .nil => "None"
        | .bool b => if b then "True" else "False"
        | _ => "<obj>"
      "[" ++ String.intercalate ", " (xs.map item) ++ "]"
    | Option.none => "[]"
  | .clock => "<native fn>"
  | .appendMethod _ => "<LoxListAppendItem method append>"
  | .deleteMethod _ => "<LoxListDeleteItem method delete>"
  | .tokenVal t => t.lexeme  -- Token.__repr__ is the lexeme
  | .astVal _ => "<expr>"

/-! ### `interpreter/environment.py` -/

/-- Source `Environment.define` in frame `envId`. -/
def envDefine (envId : Nat) (variable_name : String) (value : Value)
    (st : IState) : IState :=
  match st.envs[envId]? with
  | some f =>
    { st with envs := st.envs.set envId { f with values := vdictSet variable_name value f.values } }
  | Option.none => st

/-- Source `Environment.get`: walk the parent chain (the chain length is bounded by
the heap size; running past it models a corrupted chain as a host error). -/
def envGet : Nat → Nat → Token → IState → Res Value
  | 0, _, _, _ => .host "environment chain too long"
  | fuel + 1, envId, variable_name, st =>
    match st.envs[envId]? with
    | Option.none => .host "bad environment id"
    | some f =>
      match f.values.lookup variable_name.lexeme with
      | some v => .ok v
      | Option.none =>
        match f.parent_env with
        | some p => envGet fuel p variable_name st
        | Option.none =>
          .err variable_name ("Undefined variable " ++ variable_name.lexeme ++ ".")

/-- Source `Environment.assign`: write to the nearest frame that has the name. -/
def envAssign : Nat → Nat → Token → Value → IState → Res Unit × IState
  | 0, _, _, _, st => (.host "environment chain too long", st)
  | fuel + 1, envId, variable_name, value, st =>
    match st.envs[envId]? with
    | Option.none => (.host "bad environment id", st)
    | some f =>
      if (f.values.lookup variable_name.lexeme).isSome then
        (.ok (), { st with
          envs := st.envs.set envId { f with values := vdictSet variable_name.lexeme value f.values } })
      else
        match f.parent_env with
        | some p => envAssign fuel p variable_name value st
        | Option.none =>
          (.err variable_name ("Undefined variable " ++ variable_name.lexeme ++ "."), st)

/-- Source `Environment.ancestor`: follow `parent_env` `distance` times; the source
`assert isinstance(..., Environment)` failing is a host error. -/
def envAncestor : Nat → Nat → IState → Res Nat
  | 0, envId, _ => .ok envId
  | distance + 1, envId, st =>
    match st.envs[envId]? with
    | Option.none => .host "bad environment id"
    | some f =>
      match f.parent_env with
      | some p => envAncestor distance p st
      | Option.none => .host "assert failed: parent_env is not an Environment"

/-- Source `Environment.get_at`: direct dict access in the ancestor (a missing key
is a Python `KeyError`). -/
def envGetAt (distance : Nat) (envId : Nat) (variable_name : String)
    (st : IState) : Res Value :=
  match envAncestor distance envId st with
  | .ok a =>
    match st.envs[a]? with
    | some f =>
      match f.values.lookup variable_name with
      | some v => .ok v
      | Option.none => .host ("KeyError: " ++ variable_name)
    | Option.none => .host "bad environment id"
  | .err t m => .err t m
  | .ret v => .ret v
  | .host m => .host m
  | .out => .out

/-- Source `Environment.assign_at`: direct dict write in the ancestor. -/
def envAssignAt (distance : Nat) (envId : Nat) (variable_name : String)
    (value : Value) (st : IState) : Res Unit × IState :=
  match envAncestor distance envId st with
  | .ok a =>
    match st.envs[a]? with
    | some f =>
      (.ok (), { st with
        envs := st.envs.set a { f with values := vdictSet variable_name value f.values } })
    | Option.none => (.host "bad environment id", st)
  | .err t m => (.err t m, st)
  | .ret v => (.ret v, st)
  | .host m => (.host m, st)
  | .out => (.out, st)

/-- Allocate a fresh `Environment(parent_env)` frame. -/
def newEnv (parent : Option Nat) (values : List (String × Value))
    (st : IState) : Nat × IState :=
  (st.envs.length, { st with envs := st.envs ++ [⟨values, parent⟩] })

/-! ### Class and list runtime (`lox_class.py`, `lox_list.py`) -/

/-- Source `LoxClass.find_method`. -/
def find_method (c : LoxClassV) (method_name : String) : Option LoxFunctionV :=
  c.methods.lookup method_name

/-- Modelled from the spec: `LoxFunction.bind` is invoked by `LoxClass.call`
and `LoxInstance.get` but its definition appears nowhere in the snapshot
(`lox_callable.py` has no such method).  Spec section 4.6: retrieving a method
"produces a new `LoxFunction` whose closure is a freshly pushed environment
containing `this → instance`, with the method's original closure as parent". -/
def loxFunctionBind (f : LoxFunctionV) (instId : Nat) (st : IState) :
    LoxFunctionV × IState :=
  let (envId, st) := newEnv (some f.closure) [("this", Value.instanceRef instId)] st
  (⟨f.func_declaration, envId⟩, st)

/-- Source `LoxClass.arity`. -/
def classArity (c : LoxClassV) : Nat :=
  match find_method c "init" with
  | some i => i.func_declaration.params.length
  | Option.none => 0

/-- Source `LoxInstance.get`: fields (token-keyed) shadow methods; a found method is
returned bound to the instance. -/
def instanceGet (instId : Nat) (property_name : Token) (st : IState) :
    Res Value × IState :=
  match st.insts[instId]? with
  | Option.none => (.host "bad instance id", st)
  | some o =>
    match tdictLookup property_name o.instance_properties with
    | some v => (.ok v, st)
    | Option.none =>
      match find_method o.lox_class property_name.lexeme with
      | some m =>
        let (bound, st) := loxFunctionBind m instId st
        (.ok (.function bound), st)
      | Option.none =>
        (.err property_name ("Undefined property " ++ property_name.lexeme), st)

/-- Source `LoxInstance.set`. -/
def instanceSet (instId : Nat) (property_name : Token) (value : Value)
    (st : IState) : IState :=
  match st.insts[instId]? with
  | some o =>
    let o' := { o with instance_properties := tdictSet property_name value o.instance_properties }
    { st with insts := st.insts.set instId o' }
  | Option.none => st

/-- Source `LoxListInstance.get` (`interpreter/lox_list.py`, the module the
interpreter imports): only `append` and `delete` exist. -/
def listGet (l : Nat) (property_name : Token) : Res Value :=
  if property_name.lexeme = "append" then .ok (.appendMethod l)
  else if property_name.lexeme = "delete" then .ok (.deleteMethod l)
  else .err property_name ("Undefined property " ++ property_name.lexeme)

/-- Python `int(f)` on a float: truncation toward zero. -/
def pyInt (q : ℚ) : Int := Int.tdiv q.num (Int.ofNat q.den)

/-- Python list indexing `xs[i]` with an int: negative indices count from the
end; out of range raises `IndexError`. -/
def pyListGet (xs : List Value) (i : Int) : Res Value :=
  let j : Int := if i < 0 then i + xs.length else i
  if h : 0 ≤ j ∧ j.toNat < xs.length then .ok (xs.get ⟨j.toNat, h.2⟩)
  else .host "IndexError"

/-- Python `list.pop(i)`. -/
def pyListPop (xs : List Value) (i : Int) : Res (Value × List Value) :=
  let j : Int := if i < 0 then i + xs.length else i
  if h : 0 ≤ j ∧ j.toNat < xs.length then
    .ok (xs.get ⟨j.toNat, h.2⟩, xs.take j.toNat ++ xs.drop (j.toNat + 1))
  else .host "IndexError"

/-- Source `LoxListInstance.validate_index`: a non-float index or
`len(list) <= index` raises a bare Python `RuntimeError` (not a
`LoxRuntimeError`). -/
def validate_index (xs : List Value) (index : Value) : Res Int :=
  match index with
  | .num q =>
    if (xs.length : ℚ) ≤ q then .host "RuntimeError"
    else .ok (pyInt q)
  | _ => .host "RuntimeError"

/-- Source `LoxListInstance.get_item`. -/
def listGetItem (l : Nat) (index : Value) (st : IState) : Res Value :=
  match st.listHeap[l]? with
  | Option.none => .host "bad list id"
  | some xs =>
    match validate_index xs index with
    | .ok i => pyListGet xs i
    | .err t m => .err t m
    | .ret v => .ret v
    | .host m => .host m
    | .out => .out

/-! ### `Interpreter.visitBinaryExpr` operator dispatch

The source evaluates both operands and then dispatches on the operator; the
dispatch is factored out here (it touches no state).  `is_operand_of_type_float`
raises `EXPECT_TYPE_NUMBER` on a non-float, left operand first. -/

def visitBinaryOp (operator : Token) (left_operand right_operand : Value) : Res Value :=
  if operator.type = .BANG_EQUAL then
    .ok (.bool (¬ is_equal left_operand right_operand))
  else if operator.type = .EQUAL_EQUAL then
    .ok (.bool (is_equal left_operand right_operand))
  else if operator.type = .PLUS then
    match left_operand, right_operand with
    | .num a, .num b => .ok (.num (a + b))
    | .str a, .str b => .ok (.str (a ++ b))
    | _, _ => .err operator EXPECT_TYPE_NUMBER_OR_STRING
  else
    match left_operand with
    | .num a =>
      match right_operand with
      | .num b =>
        if operator.type = .MINUS then .ok (.num (a - b))
        else if operator.type = .STAR then .ok (.num (a * b))
        else if operator.type = .SLASH then
          if b = 0 then .err operator DIVIDE_BY_ZERO_ERROR
          else .ok (.num (a / b))
        else if operator.type = .GREATER then .ok (.bool (decide (a > b)))
        else if operator.type = .GREATER_EQUAL then .ok (.bool (decide (a ≥ b)))
        else if operator.type = .LESS then .ok (.bool (decide (a < b)))
        else if operator.type = .LESS_EQUAL then .ok (.bool (decide (a ≤ b)))
        else .err operator INVALID_BINARY_EXPRESSION  -- final fallthrough raise
      | _ => .err operator EXPECT_TYPE_NUMBER
    | _ => .err operator EXPECT_TYPE_NUMBER

/-- Source `Literal` payloads become runtime values unchanged. -/
def valueOfLit : LitVal → Value
  | .nil => .nil
  | .bool b => .bool b
  | .num q => .num q
  | .str s => .str s

/-- Arity of a `LoxCallable` (`None` marks a non-callable value). -/
def calleeArity : Value → Option Nat
  | .function f => some f.func_declaration.params.length
  | .cls c => some (classArity c)
  | .clock => some 0
  | .appendMethod _ => some 1
  | .deleteMethod _ => some 1
  | _ => Option.none

/-- Source `Interpreter.lookup_variable`. -/
def lookupVariable (nodeId : Nat) (variable_name : Token) (st : IState) : Res Value :=
  match st.resolved_local_vars.lookup nodeId with
  | some distance => envGetAt distance st.environment variable_name.lexeme st
  | Option.none => envGet (st.envs.length + 1) st.globalsId variable_name st

/-- Python dict assignment for the method table of `visitClassStmt`. -/
def vfdictSet (k : String) (v : LoxFunctionV) :
    List (String × LoxFunctionV) → List (String × LoxFunctionV)
  | [] => [(k, v)]
  | (k', v') :: rest =>
    if k' = k then (k, v) :: rest else (k', v') :: vfdictSet k v rest

/-! ### The tree-walking evaluator (`interpreter/interpreter.py`)

All functions take fuel (the source recursion/loops may diverge only through
unbounded Lox loops or recursion; fuel exhaustion surfaces as `Res.out`). -/

/-- The parameter-binding loop of `LoxFunction.call` (`for i in
range(len(arguments))`; a missing parameter would be a Python `IndexError`,
impossible after the arity check). -/
def bindParams : List Token → List Value → Nat → IState → Option IState
  | _, [], _, st => some st
  | [], _ :: _, _, _ => Option.none
  | p :: ps, a :: as_, envId, st =>
    bindParams ps as_ envId (envDefine envId p.lexeme a st)

/-- The interpreter's recursive visit methods, at a given fuel level (the
source recursion diverges only through unbounded Lox loops or recursion; fuel
exhaustion surfaces as `Res.out`). -/
structure InterpFns where
  evalExpr : Expr → IState → Res Value × IState
  evalExprs : List Expr → IState → Res (List Value) × IState
  callValue : Value → List Value → IState → Res Value × IState
  callFunction : LoxFunctionV → List Value → IState → Res Value × IState
  executeBlock : List Stmt → Nat → IState → Res Unit × IState
  execStmt : Stmt → IState → Res Unit × IState
  execStmts : List Stmt → IState → Res Unit × IState

/-- The fuel-exhausted level: every method yields `Res.out`. -/
def outInterp : InterpFns where
  evalExpr := fun _ st => (.out, st)
  evalExprs := fun _ st => (.out, st)
  callValue := fun _ _ st => (.out, st)
  callFunction := fun _ _ st => (.out, st)
  executeBlock := fun _ _ st => (.out, st)
  execStmt := fun _ st => (.out, st)
  execStmts := fun _ st => (.out, st)

def mkInterp (itp : InterpFns) : InterpFns where
  -- `Interpreter.evaluate` / expression visitor dispatch.
  evalExpr := fun e st =>
      match e with
      | .literal v => (.ok (valueOfLit v), st)
      | .variableRef id variable_name =>
        -- `visitVariableExpr` → `lookup_variable`
        (lookupVariable id variable_name st, st)
      | .thisRef id keyword => (lookupVariable id keyword st, st)
      | .assign id variable_name value =>
        match itp.evalExpr value st with
        | (.ok v, st) =>
          match st.resolved_local_vars.lookup id with
          | some distance =>
            match envAssignAt distance st.environment variable_name.lexeme v st with
            | (.ok _, st) => (.ok v, st)
            | (.err t m, st) => (.err t m, st)
            | (.ret w, st) => (.ret w, st)
            | (.host m, st) => (.host m, st)
            | (.out, st) => (.out, st)
          | Option.none =>
            match envAssign (st.envs.length + 1) st.globalsId variable_name v st with
            | (.ok _, st) => (.ok v, st)
            | (.err t m, st) => (.err t m, st)
            | (.ret w, st) => (.ret w, st)
            | (.host m, st) => (.host m, st)
            | (.out, st) => (.out, st)
        | r => r
      | .grouping expression =>
        -- placeholder in the source: returns the sub-expression itself
        (.ok (.astVal expression), st)
      | .unary operator _ =>
        -- placeholder in the source: returns the operator token itself
        (.ok (.tokenVal operator), st)
      | .binary left operator right =>
        match itp.evalExpr left st with
        | (.ok left_operand, st) =>
          match itp.evalExpr right st with
          | (.ok right_operand, st) => (visitBinaryOp operator left_operand right_operand, st)
          | r => r
        | r => r
      | .logical left_side operator right_side =>
        match itp.evalExpr left_side st with
        | (.ok left_operand, st) =>
          if operator.type = .OR then
            if is_truthy left_operand then (.ok left_operand, st)
            else itp.evalExpr right_side st
          else
            if ¬ is_truthy left_operand then (.ok left_operand, st)
            else itp.evalExpr right_side st
        | r => r
      | .ternary condition truthy falsy =>
        match itp.evalExpr condition st with
        | (.ok c, st) =>
          if is_truthy c then itp.evalExpr truthy st
          else itp.evalExpr falsy st
        | r => r
      | .call callee closing_paren arguments =>
        match itp.evalExpr callee st with
        | (.ok calleeV, st) =>
          match itp.evalExprs arguments st with
          | (.ok args, st) =>
            match calleeArity calleeV with
            | Option.none => (.err closing_paren "Can only call functions and classes.", st)
            | some arity =>
              if args.length ≠ arity then
                (.err closing_paren ("Expected " ++ toString arity ++
                  " arguments but got " ++ toString args.length ++ "."), st)
              else itp.callValue calleeV args st
          | (.err t m, st) => (.err t m, st)
          | (.ret v, st) => (.ret v, st)
          | (.host m, st) => (.host m, st)
          | (.out, st) => (.out, st)
        | r => r
      | .getProp property_name obj =>
        match itp.evalExpr obj st with
        | (.ok o, st) =>
          match o with
          | .instanceRef i => instanceGet i property_name st
          | .listRef l => (listGet l property_name, st)
          | _ => (.err property_name "Only class instances have properties.", st)
        | r => r
      | .setProp property_name obj value =>
        match itp.evalExpr obj st with
        | (.ok o, st) =>
          match o with
          | .instanceRef i =>
            match itp.evalExpr value st with
            | (.ok v, st) => (.ok v, instanceSet i property_name v st)
            | r => r
          | .listRef _ =>
            match itp.evalExpr value st with
            | (.ok _, st) =>
              (.err property_name "AttributeError: Can not set properties on LoxList object.", st)
            | r => r
          | _ => (.err property_name "Only class instances have properties.", st)
        | r => r
      | .listLit items =>
        match itp.evalExprs items st with
        | (.ok vs, st) =>
          (.ok (.listRef st.listHeap.length), { st with listHeap := st.listHeap ++ [vs] })
        | (.err t m, st) => (.err t m, st)
        | (.ret v, st) => (.ret v, st)
        | (.host m, st) => (.host m, st)
        | (.out, st) => (.out, st)
      | .listIndex lox_list index =>
        match itp.evalExpr lox_list st with
        | (.ok lv, st) =>
          match lv with
          | .listRef l =>
            match itp.evalExpr index st with
            | (.ok iv, st) => (listGetItem l iv st, st)
            | r => r
          | _ => (.ok .nil, st)  -- non-list: `return None`
        | r => r
  -- Argument-list evaluation, left to right.
  evalExprs := fun a0 a1 => match a0, a1 with
    | [], st => (.ok [], st)
    | e :: rest, st =>
        match itp.evalExpr e st with
        | (.ok v, st) =>
          match itp.evalExprs rest st with
          | (.ok vs, st) => (.ok (v :: vs), st)
          | (.err t m, st) => (.err t m, st)
          | (.ret w, st) => (.ret w, st)
          | (.host m, st) => (.host m, st)
          | (.out, st) => (.out, st)
        | (.err t m, st) => (.err t m, st)
        | (.ret w, st) => (.ret w, st)
        | (.host m, st) => (.host m, st)
        | (.out, st) => (.out, st)
  -- `LoxCallable.call` dispatch (the arity was already checked).
  callValue := fun callee args st =>
      match callee with
      | .function f => itp.callFunction f args st
      | .cls c =>
        -- `LoxClass.call`: construct the instance, then bind and run `init`
        let instId := st.insts.length
        let st := { st with insts := st.insts ++ [⟨c, []⟩] }
        match find_method c "init" with
        | some initializer =>
          let (bound, st) := loxFunctionBind initializer instId st
          match itp.callFunction bound args st with
          | (.ok _, st) => (.ok (.instanceRef instId), st)
          | (.err t m, st) => (.err t m, st)
          | (.ret v, st) => (.ret v, st)
          | (.host m, st) => (.host m, st)
          | (.out, st) => (.out, st)
        | Option.none => (.ok (.instanceRef instId), st)
      | .clock =>
        -- `time.time()`: wall-clock seconds; modelled as an arbitrary fixed
        -- value (no claim calls `clock`)
        (.ok (.num 0), st)
      | .appendMethod l =>
        -- `LoxListAppendItem.call`: `extend` with the argument list
        match st.listHeap[l]? with
        | some xs => (.ok .nil, { st with listHeap := st.listHeap.set l (xs ++ args) })
        | Option.none => (.host "bad list id", st)
      | .deleteMethod l =>
        -- `LoxListDeleteItem.call`
        match st.listHeap[l]? with
        | some xs =>
          match args.headD .nil with
          | idx =>
            match validate_index xs idx with
            | .ok i =>
              match pyListPop xs i with
              | .ok (removed, xs') => (.ok removed, { st with listHeap := st.listHeap.set l xs' })
              | .err t m => (.err t m, st)
              | .ret v => (.ret v, st)
              | .host m => (.host m, st)
              | .out => (.out, st)
            | .err t m => (.err t m, st)
            | .ret v => (.ret v, st)
            | .host m => (.host m, st)
            | .out => (.out, st)
        | Option.none => (.host "bad list id", st)
      | _ => (.host "not callable", st)
  -- `LoxFunction.call`: fresh environment on the closure, bind parameters to
  -- arguments in lockstep, run the body, catch the return signal.
  callFunction := fun f args st =>
      let (envId, st) := newEnv (some f.closure) [] st
      match bindParams f.func_declaration.params args envId st with
      | Option.none => (.host "IndexError: params shorter than arguments", st)
      | some st =>
        match itp.executeBlock f.func_declaration.body envId st with
        | (.ret return_value, st) => (.ok return_value, st)
        | (.ok _, st) => (.ok .nil, st)
        | (.err t m, st) => (.err t m, st)
        | (.host m, st) => (.host m, st)
        | (.out, st) => (.out, st)
  -- `Interpreter.executeBlock`: swap in the block environment, run the
  -- statements, and restore the previous environment on every exit path
  -- (the source's `finally`).
  executeBlock := fun statements environment st =>
      let prev_env := st.environment
      let (r, st') := itp.execStmts statements { st with environment := environment }
      (r, { st' with environment := prev_env })
  -- `Interpreter.execute` / statement visitor dispatch.
  execStmt := fun s st =>
      match s with
      | .expressionStmt expression =>
        match itp.evalExpr expression st with
        | (.ok _, st) => (.ok (), st)
        | (.err t m, st) => (.err t m, st)
        | (.ret v, st) => (.ret v, st)
        | (.host m, st) => (.host m, st)
        | (.out, st) => (.out, st)
      | .printStmt expression =>
        match itp.evalExpr expression st with
        | (.ok v, st) => (.ok (), { st with output := st.output ++ [stringify st v] })
        | (.err t m, st) => (.err t m, st)
        | (.ret v, st) => (.ret v, st)
        | (.host m, st) => (.host m, st)
        | (.out, st) => (.out, st)
      | .varStmt variable_name initializer =>
        match initializer with
        | Option.none => (.ok (), envDefine st.environment variable_name.lexeme .nil st)
        | some ini =>
          match itp.evalExpr ini st with
          | (.ok v, st) => (.ok (), envDefine st.environment variable_name.lexeme v st)
          | (.err t m, st) => (.err t m, st)
          | (.ret v, st) => (.ret v, st)
          | (.host m, st) => (.host m, st)
          | (.out, st) => (.out, st)
      | .blockStmt statements =>
        let (envId, st) := newEnv (some st.environment) [] st
        itp.executeBlock statements envId st
      | .ifStmt condition then_branch else_branch =>
        match itp.evalExpr condition st with
        | (.ok c, st) =>
          if is_truthy c then itp.execStmt then_branch st
          else
            match else_branch with
            | some e => itp.execStmt e st
            | Option.none => (.ok (), st)
        | (.err t m, st) => (.err t m, st)
        | (.ret v, st) => (.ret v, st)
        | (.host m, st) => (.host m, st)
        | (.out, st) => (.out, st)
      | .whileStmt condition body =>
        match itp.evalExpr condition st with
        | (.ok c, st) =>
          if is_truthy c then
            match itp.execStmt body st with
            | (.ok _, st) => itp.execStmt (.whileStmt condition body) st
            | (.err t m, st) => (.err t m, st)
            | (.ret v, st) => (.ret v, st)
            | (.host m, st) => (.host m, st)
            | (.out, st) => (.out, st)
          else (.ok (), st)
        | (.err t m, st) => (.err t m, st)
        | (.ret v, st) => (.ret v, st)
        | (.host m, st) => (.host m, st)
        | (.out, st) => (.out, st)
      | .functionStmt decl =>
        let function : LoxFunctionV := ⟨decl, st.environment⟩
        (.ok (), envDefine st.environment decl.func_name.lexeme (.function function) st)
      | .returnStmt _ value =>
        match value with
        | Option.none => (.ret .nil, st)
        | some v =>
          match itp.evalExpr v st with
          | (.ok w, st) => (.ret w, st)
          | (.err t m, st) => (.err t m, st)
          | (.ret w, st) => (.ret w, st)
          | (.host m, st) => (.host m, st)
          | (.out, st) => (.out, st)
      | .classStmt name methods =>
        -- two-stage binding: define the name, build the method table, assign
        let st := envDefine st.environment name.lexeme .nil st
        let table := methods.foldl
          (fun acc m => vfdictSet m.func_name.lexeme ⟨m, st.environment⟩ acc) []
        let lox_class : LoxClassV := ⟨name.lexeme, table⟩
        match envAssign (st.envs.length + 1) st.environment name (.cls lox_class) st with
        | (.ok _, st) => (.ok (), st)
        | (.err t m, st) => (.err t m, st)
        | (.ret v, st) => (.ret v, st)
        | (.host m, st) => (.host m, st)
        | (.out, st) => (.out, st)
  -- The statement loop shared by `interpret` and `executeBlock`.
  execStmts := fun a0 a1 => match a0, a1 with
    | [], st => (.ok (), st)
    | s :: rest, st =>
        match itp.execStmt s st with
        | (.ok _, st) => itp.execStmts rest st
        | (.err t m, st) => (.err t m, st)
        | (.ret v, st) => (.ret v, st)
        | (.host m, st) => (.host m, st)
        | (.out, st) => (.out, st)

/-- The interpreter methods with `fuel` levels available (`Nat.rec` so that
it evaluates by kernel reduction). -/
def interpAt (fuel : Nat) : InterpFns :=
  Nat.rec outInterp (fun _ prev => mkInterp prev) fuel

/-- Dispatcher wrappers with the fuel argument explicit. -/
def evalExpr (fuel : Nat) : Expr → IState → Res Value × IState :=
  (interpAt fuel).evalExpr

def evalExprs (fuel : Nat) : List Expr → IState → Res (List Value) × IState :=
  (interpAt fuel).evalExprs

def callValue (fuel : Nat) : Value → List Value → IState → Res Value × IState :=
  (interpAt fuel).callValue

def callFunction (fuel : Nat) : LoxFunctionV → List Value → IState → Res Value × IState :=
  (interpAt fuel).callFunction

def executeBlock (fuel : Nat) : List Stmt → Nat → IState → Res Unit × IState :=
  (interpAt fuel).executeBlock

def execStmt (fuel : Nat) : Stmt → IState → Res Unit × IState :=
  (interpAt fuel).execStmt

def execStmts (fuel : Nat) : List Stmt → IState → Res Unit × IState :=
  (interpAt fuel).execStmts

/-! ## The pipeline (`lox.py`) -/

/-- The interpreter's starting state: `Lox.__init__` builds
`Interpreter(Environment(), self)`, whose constructor stuffs the native
`clock` into the global frame; `interpret` installs the resolver's map. -/
def initIState (resolved : RMap) : IState :=
  { envs := [⟨[("clock", Value.clock)], Option.none⟩]
    insts := []
    listHeap := []
    environment := 0
    globalsId := 0
    resolved_local_vars := resolved
    output := []
  }

/-- Source `Interpreter.interpret`: run the statements, catching `LoxRuntimeError`
(which marks `had_runtime_error`); any other Python exception escapes
(`none`).  Returns the printed output and the runtime-error flag. -/
def interpret (fuel : Nat) (statements : List Stmt) (resolved : RMap) :
    Option (List String × Bool) :=
  match execStmts fuel statements (initIState resolved) with
  | (.ok _, st) => some (st.output, false)
  | (.err _ _, st) => some (st.output, true)
  | (.ret _, _) => Option.none
  | (.host _, _) => Option.none
  | (.out, _) => Option.none

/-- Result of one `Lox.run`: which phase methods were invoked (in call
order), the errors each front-end phase reported, the reporter flags and the
printed output. -/
structure RunRes where
  phases : List String
  scan_errors : List (Nat × String)
  parse_errors : List (Nat × String)
  resolve_errors : List (Nat × String)
  had_error : Bool
  had_runtime_error : Bool
  output : List String
  deriving Repr, DecidableEq

/-- Source `Lox.run(source)`.  Faithful control flow: `scanner.scan` and
`parser.parse` are always invoked in sequence; only then is `had_error`
consulted (skipping the resolver and interpreter), and again after
resolution (skipping the interpreter).  `interpFuel` bounds Lox-level
loops/recursion; `none` models a Python-level crash (or fuel exhaustion). -/
def runLox (source : String) (interpFuel : Nat) : Option RunRes :=
  match scan source with
  | Option.none => Option.none
  | some (tokens, scanErrs) =>
    match parseTokens tokens with
    | Option.none => Option.none
    | some (statements, parseErrs) =>
      -- "Stop if there are parsing errors." (the reporter flag is sticky,
      -- so scan errors also trip this first check)
      if scanErrs ≠ [] ∨ parseErrs ≠ [] then
        some ⟨["scan", "parse"], scanErrs, parseErrs, [], true, false, []⟩
      else
        match resolveProgram (100 * (tokens.length + 1)) statements with
        | Option.none => Option.none
        | some (resolved, resolveErrs) =>
          -- "Stop if there are resolution errors."
          if resolveErrs ≠ [] then
            some ⟨["scan", "parse", "resolve"], scanErrs, parseErrs, resolveErrs,
              true, false, []⟩
          else
            match interpret interpFuel statements resolved with
            | Option.none => Option.none
            | some (output, hadRuntime) =>
              some ⟨["scan", "parse", "resolve", "interpret"], scanErrs, parseErrs,
                resolveErrs, false, hadRuntime, output⟩

/-! ## Concrete programs named by the claims -/

/-- Token constructors used to write concrete token streams. -/
def tkn (ty : TokenType) (lx : String) : Token := ⟨ty, lx, .none⟩

def identTok (s : String) : Token := tkn .IDENTIFIER s

def strTok (s : String) : Token := ⟨.STRING, s, .str s⟩

def numTok (n : ℚ) (lx : String) : Token := ⟨.NUMBER, lx, .num n⟩

/-- The comma-separated continuation after the first element of a list
literal: `, t1 , t2 ...`. -/
def commaJoin : List Token → List Token
  | [] => []
  | t :: ts => tkn .COMMA "," :: t :: commaJoin ts

/-- The token segment of a list literal `[ t1 , t2 , ... , tn ]`. -/
def listLitSeg (ts : List Token) : List Token :=
  match ts with
  | [] => [tkn .LEFT_BRACKET "[", tkn .RIGHT_BRACKET "]"]
  | t :: rest => tkn .LEFT_BRACKET "[" :: t :: (commaJoin rest ++ [tkn .RIGHT_BRACKET "]"])

/-- The element expressions `Parser.lox_list` builds for literal element
tokens. -/
def litItems (ts : List Token) : List Expr :=
  ts.map (fun t => Expr.literal (litOfTok t.literal))

/-- The class program of claim C1 (spec scenario 5). -/
def greeterSrc : String :=
  "class Greeter \x7b init(n)\x7b this.n=n; \x7d hi()\x7b print \"hi \" + this.n; \x7d \x7d Greeter(\"x\").hi();"

/-- The list program of claim C2 (spec scenario 6), as source text. -/
def listSrc : String :=
  "var x=[1,2,3]; x.append(4); print x[3]; print x.delete(0); print x[0];"

/-- The token stream for `listSrc` (the bracket tokens written per the spec's
token model, since the source scanner has no branch for them). -/
def listToks : List Token :=
  [tkn .VAR "var", identTok "x", tkn .EQUAL "=",
   tkn .LEFT_BRACKET "[", numTok 1 "1", tkn .COMMA ",", numTok 2 "2", tkn .COMMA ",",
   numTok 3 "3", tkn .RIGHT_BRACKET "]", tkn .SEMICOLON ";",
   identTok "x", tkn .DOT ".", identTok "append", tkn .LEFT_PAREN "(", numTok 4 "4",
   tkn .RIGHT_PAREN ")", tkn .SEMICOLON ";",
   tkn .PRINT "print", identTok "x", tkn .LEFT_BRACKET "[", numTok 3 "3",
   tkn .RIGHT_BRACKET "]", tkn .SEMICOLON ";",
   tkn .PRINT "print", identTok "x", tkn .DOT ".", identTok "delete", tkn .LEFT_PAREN "(",
   numTok 0 "0", tkn .RIGHT_PAREN ")", tkn .SEMICOLON ";",
   tkn .PRINT "print", identTok "x", tkn .LEFT_BRACKET "[", numTok 0 "0",
   tkn .RIGHT_BRACKET "]", tkn .SEMICOLON ";",
   tkn .EOF "/0"]

/-- The statements `Parser.parse` produces for `listToks` (node ids as the
parser's fresh-object counter assigns them). -/
def listAst : List Stmt :=
  [.varStmt (identTok "x")
     (some (.listLit [.literal (.num 1), .literal (.num 2), .literal (.num 3)])),
   .expressionStmt (.call
     (.getProp (identTok "append") (.variableRef 0 (identTok "x")))
     (tkn .RIGHT_PAREN ")") [.literal (.num 4)]),
   .printStmt (.listIndex (.variableRef 1 (identTok "x")) (.literal (.num 3))),
   .printStmt (.call
     (.getProp (identTok "delete") (.variableRef 2 (identTok "x")))
     (tkn .RIGHT_PAREN ")") [.literal (.num 0)]),
   .printStmt (.listIndex (.variableRef 3 (identTok "x")) (.literal (.num 0)))]

/-- The shadowing program of claim C4: the inner `a` should shadow the outer
one at `print a`. -/
def shadowSrc : String := "\x7b var a = 1; \x7b var a = 2; print a; \x7d \x7d"

/-- What `Lox.run("@")` produces. -/
def runAtSign : RunRes := ⟨["scan", "parse"], [(1, INVALID_CHAR)], [], [], true, false, []⟩

/-- Number of newline characters in a character list. -/
def newlineCount (s : List Char) : Nat := (s.filter (fun c => c = '\n')).length

/-- Spec-side description of numeric `Binary` evaluation, written from the
spec's words for comparison with `visitBinaryOp` (claim C7): for the numeric
operators both operands must be numbers, else the `EXPECT_TYPE_NUMBER`
runtime error; `/` with right operand exactly zero fails with
`DIVIDE_BY_ZERO_ERROR`; otherwise the exact arithmetic or comparison result
(numbers modelled as rationals). -/
def specNumericOutcome (t : Token) (l r : Value) : Res Value :=
  match l, r with
  | .num a, .num b =>
    if t.type = .SLASH ∧ b = 0 then .err t DIVIDE_BY_ZERO_ERROR
    else if t.type = .MINUS then .ok (.num (a - b))
    else if t.type = .STAR then .ok (.num (a * b))
    else if t.type = .SLASH then .ok (.num (a / b))
    else if t.type = .LESS then .ok (.bool (decide (a < b)))
    else if t.type = .LESS_EQUAL then .ok (.bool (decide (a ≤ b)))
    else if t.type = .GREATER then .ok (.bool (decide (a > b)))
    else if t.type = .GREATER_EQUAL then .ok (.bool (decide (a ≥ b)))
    else .err t INVALID_BINARY_EXPRESSION
  | _, _ => .err t EXPECT_TYPE_NUMBER

/-- A one-method class and an instance of it, used to witness the general
class/method statements of claim C1 on concrete input. -/
def witInitFn : LoxFunctionV := ⟨⟨identTok "init", [], []⟩, 0⟩

def witClass : LoxClassV := ⟨"C", [("init", witInitFn)]⟩

def witState : IState := { initIState [] with insts := [⟨witClass, []⟩] }

/-! ## Unfolding lemmas for the fuel-level families -/

theorem scanLoop_succ (n : Nat) : scanLoop (n + 1) = scanLoopStep (scanLoop n) := rfl

theorem parserAt_succ (n : Nat) : parserAt (n + 1) = mkParser (parserAt n) := rfl

theorem resolverAt_succ (n : Nat) : resolverAt (n + 1) = mkResolver (resolverAt n) := rfl

theorem interpAt_succ (n : Nat) : interpAt (n + 1) = mkInterp (interpAt n) := rfl

theorem interpAt_zero : interpAt 0 = outInterp := rfl

/-! ## Helper lemmas -/

/-- Defining a variable never moves the current-environment handle. -/
theorem envDefine_environment (i : Nat) (n : String) (v : Value) (st : IState) :
    (envDefine i n v st).environment = st.environment := by
  unfold envDefine
  cases st.envs[i]? <;> rfl

/-- Parameter binding never moves the current-environment handle. -/
theorem bindParams_environment (args : List Value) :
    ∀ (ps : List Token) (e : Nat) (st st' : IState),
      bindParams ps args e st = some st' → st'.environment = st.environment := by
  induction args with
  | nil =>
    intro ps e st st' h
    cases ps <;> (unfold bindParams at h; injection h with h; rw [← h])
  | cons a as ih =>
    intro ps e st st' h
    cases ps with
    | nil => exact absurd h (by unfold bindParams; exact fun h => Option.noConfusion h)
    | cons p ps =>
      unfold bindParams at h
      rw [ih ps e (envDefine e p.lexeme a st) st' h, envDefine_environment]

/-- Source `executeBlock` restores the previous current environment on every exit
path (normal, runtime error, return signal, host error, fuel exhaustion). -/
theorem executeBlock_environment (fuel : Nat) (statements : List Stmt)
    (envId : Nat) (st : IState) :
    ((executeBlock fuel statements envId st).2).environment = st.environment := by
  cases fuel with
  | zero => rfl
  | succ n =>
    show (((mkInterp (interpAt n)).executeBlock statements envId st).2).environment
      = st.environment
    unfold mkInterp
    cases (interpAt n).execStmts statements { st with environment := envId } with
    | mk r st' => rfl

/-- Source `LoxFunction.call` restores the caller's current environment on every
exit path. -/
theorem callFunction_environment (fuel : Nat) (f : LoxFunctionV)
    (args : List Value) (st : IState) :
    ((callFunction fuel f args st).2).environment = st.environment := by
  cases fuel with
  | zero => rfl
  | succ n =>
    show (((mkInterp (interpAt n)).callFunction f args st).2).environment = st.environment
    unfold mkInterp
    simp only [newEnv]
    cases hbp : bindParams f.func_declaration.params args st.envs.length
        { st with envs := st.envs ++ [⟨[], some f.closure⟩] } with
    | none => simp [hbp]
    | some st2 =>
      have h2 := bindParams_environment args _ _ _ _ hbp
      have h3 := executeBlock_environment n f.func_declaration.body st.envs.length st2
      cases hex : (interpAt n).executeBlock f.func_declaration.body st.envs.length st2 with
      | mk r st3 =>
        have h4 : st3.environment = st2.environment := by
          have : executeBlock n f.func_declaration.body st.envs.length st2
              = (interpAt n).executeBlock f.func_declaration.body st.envs.length st2 := rfl
          rw [this, hex] at h3
          exact h3
        cases r <;> simp [hbp, hex, h4, h2]

/-! ## Helper lemmas for the list-literal claims (C2)

Symbolic evaluation of the recursive-descent parser and of the list
operations on arbitrary inputs. -/

set_option maxHeartbeats 1000000

/-! ### Reduction helpers for the parser monad -/

theorem PRes.bind_ok (a : α) (f : α → PRes β) : (PRes.ok a : PRes α) >>= f = f a := rfl

theorem PRes.pure_def (a : α) : (pure a : PRes α) = PRes.ok a := rfl

theorem getElem_append_len (pre : List Token) (t : Token) (rest : List Token) :
    (pre ++ t :: rest)[pre.length]? = some t := by
  rw [List.getElem?_append_right (Nat.le_refl _)]
  simp

theorem getElem_append_len1 (pre : List Token) (t u : Token) (rest : List Token) :
    (pre ++ t :: u :: rest)[pre.length + 1]? = some u := by
  have h : pre ++ t :: u :: rest = (pre ++ [t]) ++ u :: rest := by simp
  have h2 : pre.length + 1 = (pre ++ [t]).length := by simp
  rw [h, h2, getElem_append_len]

theorem getElem_total_append_len (pre : List Token) (t : Token) (rest : List Token)
    (h : pre.length < (pre ++ t :: rest).length) :
    (pre ++ t :: rest)[pre.length] = t := by
  rw [List.getElem_append_right (Nat.le_refl _)]
  simp

theorem getElem_total_append_len1 (pre : List Token) (t u : Token) (rest : List Token)
    (h : pre.length + 1 < (pre ++ t :: u :: rest).length) :
    (pre ++ t :: u :: rest)[pre.length + 1] = u := by
  have h1 : pre ++ t :: u :: rest = (pre ++ [t]) ++ u :: rest := by simp
  have h2 : pre.length + 1 = (pre ++ [t]).length := by simp
  simp only [h1, h2] at h ⊢
  exact getElem_total_append_len (pre ++ [t]) u rest h

/-! ### One-token element parses (`Parser.primary` on a literal token) -/

/-- Source `Parser.primary` consumes a `NUMBER`/`STRING` token and returns the
corresponding `Literal` node. -/
theorem elem_primary (g : Nat) (pre : List Token) (t u : Token) (rest : List Token)
    (idc : Nat) (ht : t.type = .NUMBER ∨ t.type = .STRING) :
    (parserAt (g + 1)).primary ⟨pre ++ t :: u :: rest, pre.length, idc⟩
      = .ok (.literal (litOfTok t.literal),
          ⟨(pre ++ [t]) ++ u :: rest, (pre ++ [t]).length, idc⟩) := by
  rw [parserAt_succ]
  rcases ht with ht | ht <;>
    simp [mkParser, nextTokenMatches, checkTokenType, pIsEOF, peekT, consumeTok,
      getElem_append_len, getElem_total_append_len, ht, PRes.bind_ok, PRes.pure_def,
      List.append_assoc]

/-! ### Loop-exit lemmas: each binary-operator while-loop returns its
accumulated expression unchanged when the next token is not one of its
operators (or is `EOF`, which `check_token_type` rejects first). -/

theorem loxListIndexLoop_exit (g : Nat) (e : Expr) (pre : List Token) (u : Token)
    (rest : List Token) (idc : Nat)
    (h1 : (u.type == .LEFT_PAREN) = false) (h2 : (u.type == .LEFT_BRACKET) = false) :
    (parserAt (g + 1)).loxListIndexLoop e ⟨pre ++ u :: rest, pre.length, idc⟩
      = .ok (e, ⟨pre ++ u :: rest, pre.length, idc⟩) := by
  rw [parserAt_succ]
  simp [mkParser, nextTokenMatches, checkTokenType, pIsEOF, peekT,
    getElem_append_len, getElem_total_append_len, h1, h2, PRes.bind_ok, PRes.pure_def]

theorem callLoop_exit (g : Nat) (e : Expr) (pre : List Token) (u : Token)
    (rest : List Token) (idc : Nat)
    (h1 : (u.type == .LEFT_PAREN) = false) (h2 : (u.type == .DOT) = false) :
    (parserAt (g + 1)).callLoop e ⟨pre ++ u :: rest, pre.length, idc⟩
      = .ok (e, ⟨pre ++ u :: rest, pre.length, idc⟩) := by
  rw [parserAt_succ]
  simp [mkParser, nextTokenMatches, checkTokenType, pIsEOF, peekT,
    getElem_append_len, getElem_total_append_len, h1, h2, PRes.bind_ok, PRes.pure_def]

theorem factorLoop_exit (g : Nat) (e : Expr) (pre : List Token) (u : Token)
    (rest : List Token) (idc : Nat)
    (h1 : (u.type == .SLASH) = false) (h2 : (u.type == .STAR) = false) :
    (parserAt (g + 1)).factorLoop e ⟨pre ++ u :: rest, pre.length, idc⟩
      = .ok (e, ⟨pre ++ u :: rest, pre.length, idc⟩) := by
  rw [parserAt_succ]
  simp [mkParser, nextTokenMatches, checkTokenType, pIsEOF, peekT,
    getElem_append_len, getElem_total_append_len, h1, h2, PRes.bind_ok, PRes.pure_def]

theorem termLoop_exit (g : Nat) (e : Expr) (pre : List Token) (u : Token)
    (rest : List Token) (idc : Nat)
    (h1 : (u.type == .MINUS) = false) (h2 : (u.type == .PLUS) = false) :
    (parserAt (g + 1)).termLoop e ⟨pre ++ u :: rest, pre.length, idc⟩
      = .ok (e, ⟨pre ++ u :: rest, pre.length, idc⟩) := by
  rw [parserAt_succ]
  simp [mkParser, nextTokenMatches, checkTokenType, pIsEOF, peekT,
    getElem_append_len, getElem_total_append_len, h1, h2, PRes.bind_ok, PRes.pure_def]

theorem comparisonLoop_exit (g : Nat) (e : Expr) (pre : List Token) (u : Token)
    (rest : List Token) (idc : Nat)
    (h1 : (u.type == .LESS) = false) (h2 : (u.type == .LESS_EQUAL) = false)
    (h3 : (u.type == .GREATER) = false) (h4 : (u.type == .GREATER_EQUAL) = false) :
    (parserAt (g + 1)).comparisonLoop e ⟨pre ++ u :: rest, pre.length, idc⟩
      = .ok (e, ⟨pre ++ u :: rest, pre.length, idc⟩) := by
  rw [parserAt_succ]
  simp [mkParser, nextTokenMatches, checkTokenType, pIsEOF, peekT,
    getElem_append_len, getElem_total_append_len, h1, h2, h3, h4, PRes.bind_ok, PRes.pure_def]

theorem equalityLoop_exit (g : Nat) (e : Expr) (pre : List Token) (u : Token)
    (rest : List Token) (idc : Nat)
    (h1 : (u.type == .BANG_EQUAL) = false) (h2 : (u.type == .EQUAL_EQUAL) = false) :
    (parserAt (g + 1)).equalityLoop e ⟨pre ++ u :: rest, pre.length, idc⟩
      = .ok (e, ⟨pre ++ u :: rest, pre.length, idc⟩) := by
  rw [parserAt_succ]
  simp [mkParser, nextTokenMatches, checkTokenType, pIsEOF, peekT,
    getElem_append_len, getElem_total_append_len, h1, h2, PRes.bind_ok, PRes.pure_def]

theorem logicAndLoop_exit (g : Nat) (e : Expr) (pre : List Token) (u : Token)
    (rest : List Token) (idc : Nat)
    (h1 : (u.type == .AND) = false) :
    (parserAt (g + 1)).logicAndLoop e ⟨pre ++ u :: rest, pre.length, idc⟩
      = .ok (e, ⟨pre ++ u :: rest, pre.length, idc⟩) := by
  rw [parserAt_succ]
  simp [mkParser, nextTokenMatches, checkTokenType, pIsEOF, peekT,
    getElem_append_len, getElem_total_append_len, h1, PRes.bind_ok, PRes.pure_def]

theorem logicOrLoop_exit (g : Nat) (e : Expr) (pre : List Token) (u : Token)
    (rest : List Token) (idc : Nat)
    (h1 : (u.type == .OR) = false) :
    (parserAt (g + 1)).logicOrLoop e ⟨pre ++ u :: rest, pre.length, idc⟩
      = .ok (e, ⟨pre ++ u :: rest, pre.length, idc⟩) := by
  rw [parserAt_succ]
  simp [mkParser, nextTokenMatches, checkTokenType, pIsEOF, peekT,
    getElem_append_len, getElem_total_append_len, h1, PRes.bind_ok, PRes.pure_def]

/-! ### Lifting a sub-parse one grammar level up the recursive descent -/

/-- Source `Parser.lox_list` falls through to `primary` when the next token is
not `[`. -/
theorem lift_loxList (g : Nat) (st0 : PState) (h0 : Token) (r : PRes (Expr × PState))
    (hh : st0.tokens[st0.pos]? = some h0)
    (hty : (h0.type == .LEFT_BRACKET) = false)
    (H : (parserAt (g + 1)).primary st0 = r) :
    (parserAt (g + 2)).loxList st0 = r := by
  rw [show g + 2 = (g + 1) + 1 from rfl, parserAt_succ]
  simp only [mkParser]
  simp [nextTokenMatches, checkTokenType, pIsEOF, peekT, hh, hty,
    PRes.bind_ok, PRes.pure_def]
  exact H

/-- Source `Parser.lox_list_index` wraps `lox_list` in its index loop. -/
theorem lift_loxListIndex (g : Nat) (st0 : PState) (e : Expr) (pre : List Token)
    (u : Token) (rest : List Token) (idc : Nat)
    (H : (parserAt (g + 1)).loxList st0 = .ok (e, ⟨pre ++ u :: rest, pre.length, idc⟩))
    (h1 : (u.type == .LEFT_PAREN) = false) (h2 : (u.type == .LEFT_BRACKET) = false) :
    (parserAt (g + 2)).loxListIndex st0 = .ok (e, ⟨pre ++ u :: rest, pre.length, idc⟩) := by
  rw [show g + 2 = (g + 1) + 1 from rfl, parserAt_succ]
  simp only [mkParser]
  rw [H, PRes.bind_ok]
  exact loxListIndexLoop_exit g e pre u rest idc h1 h2

/-- Source `Parser.grouping` falls through to `lox_list_index` when the next
token is not `(`. -/
theorem lift_grouping (g : Nat) (st0 : PState) (h0 : Token) (r : PRes (Expr × PState))
    (hh : st0.tokens[st0.pos]? = some h0)
    (hty : (h0.type == .LEFT_PAREN) = false)
    (H : (parserAt (g + 1)).loxListIndex st0 = r) :
    (parserAt (g + 2)).grouping st0 = r := by
  rw [show g + 2 = (g + 1) + 1 from rfl, parserAt_succ]
  simp only [mkParser]
  simp [nextTokenMatches, checkTokenType, pIsEOF, peekT, hh, hty,
    PRes.bind_ok, PRes.pure_def]
  exact H

/-- Source `Parser.call` wraps `grouping` in the call/property loop. -/
theorem lift_call (g : Nat) (st0 : PState) (e : Expr) (pre : List Token)
    (u : Token) (rest : List Token) (idc : Nat)
    (H : (parserAt (g + 1)).grouping st0 = .ok (e, ⟨pre ++ u :: rest, pre.length, idc⟩))
    (h1 : (u.type == .LEFT_PAREN) = false) (h2 : (u.type == .DOT) = false) :
    (parserAt (g + 2)).call st0 = .ok (e, ⟨pre ++ u :: rest, pre.length, idc⟩) := by
  rw [show g + 2 = (g + 1) + 1 from rfl, parserAt_succ]
  simp only [mkParser]
  rw [H, PRes.bind_ok]
  exact callLoop_exit g e pre u rest idc h1 h2

/-- Source `Parser.unary` falls through to `call` when the next token is not
`!` or `-`. -/
theorem lift_unary (g : Nat) (st0 : PState) (h0 : Token) (r : PRes (Expr × PState))
    (hh : st0.tokens[st0.pos]? = some h0)
    (hty1 : (h0.type == .BANG) = false) (hty2 : (h0.type == .MINUS) = false)
    (H : (parserAt (g + 1)).call st0 = r) :
    (parserAt (g + 2)).unary st0 = r := by
  rw [show g + 2 = (g + 1) + 1 from rfl, parserAt_succ]
  simp only [mkParser]
  simp [nextTokenMatches, checkTokenType, pIsEOF, peekT, hh, hty1, hty2,
    PRes.bind_ok, PRes.pure_def]
  exact H

/-- Source `Parser.factor` wraps `unary` in its operator loop. -/
theorem lift_factor (g : Nat) (st0 : PState) (e : Expr) (pre : List Token)
    (u : Token) (rest : List Token) (idc : Nat)
    (H : (parserAt (g + 1)).unary st0 = .ok (e, ⟨pre ++ u :: rest, pre.length, idc⟩))
    (h1 : (u.type == .SLASH) = false) (h2 : (u.type == .STAR) = false) :
    (parserAt (g + 2)).factor st0 = .ok (e, ⟨pre ++ u :: rest, pre.length, idc⟩) := by
  rw [show g + 2 = (g + 1) + 1 from rfl, parserAt_succ]
  simp only [mkParser]
  rw [H, PRes.bind_ok]
  exact factorLoop_exit g e pre u rest idc h1 h2

/-- Source `Parser.term` wraps `factor` in its operator loop. -/
theorem lift_term (g : Nat) (st0 : PState) (e : Expr) (pre : List Token)
    (u : Token) (rest : List Token) (idc : Nat)
    (H : (parserAt (g + 1)).factor st0 = .ok (e, ⟨pre ++ u :: rest, pre.length, idc⟩))
    (h1 : (u.type == .MINUS) = false) (h2 : (u.type == .PLUS) = false) :
    (parserAt (g + 2)).term st0 = .ok (e, ⟨pre ++ u :: rest, pre.length, idc⟩) := by
  rw [show g + 2 = (g + 1) + 1 from rfl, parserAt_succ]
  simp only [mkParser]
  rw [H, PRes.bind_ok]
  exact termLoop_exit g e pre u rest idc h1 h2

/-- Source `Parser.comparison` wraps `term` in its operator loop. -/
theorem lift_comparison (g : Nat) (st0 : PState) (e : Expr) (pre : List Token)
    (u : Token) (rest : List Token) (idc : Nat)
    (H : (parserAt (g + 1)).term st0 = .ok (e, ⟨pre ++ u :: rest, pre.length, idc⟩))
    (h1 : (u.type == .LESS) = false) (h2 : (u.type == .LESS_EQUAL) = false)
    (h3 : (u.type == .GREATER) = false) (h4 : (u.type == .GREATER_EQUAL) = false) :
    (parserAt (g + 2)).comparison st0 = .ok (e, ⟨pre ++ u :: rest, pre.length, idc⟩) := by
  rw [show g + 2 = (g + 1) + 1 from rfl, parserAt_succ]
  simp only [mkParser]
  rw [H, PRes.bind_ok]
  exact comparisonLoop_exit g e pre u rest idc h1 h2 h3 h4

/-- Source `Parser.equality` wraps `comparison` in its operator loop. -/
theorem lift_equality (g : Nat) (st0 : PState) (e : Expr) (pre : List Token)
    (u : Token) (rest : List Token) (idc : Nat)
    (H : (parserAt (g + 1)).comparison st0 = .ok (e, ⟨pre ++ u :: rest, pre.length, idc⟩))
    (h1 : (u.type == .BANG_EQUAL) = false) (h2 : (u.type == .EQUAL_EQUAL) = false) :
    (parserAt (g + 2)).equality st0 = .ok (e, ⟨pre ++ u :: rest, pre.length, idc⟩) := by
  rw [show g + 2 = (g + 1) + 1 from rfl, parserAt_succ]
  simp only [mkParser]
  rw [H, PRes.bind_ok]
  exact equalityLoop_exit g e pre u rest idc h1 h2

/-- Source `Parser.logic_and` wraps `equality` in its operator loop. -/
theorem lift_logicAnd (g : Nat) (st0 : PState) (e : Expr) (pre : List Token)
    (u : Token) (rest : List Token) (idc : Nat)
    (H : (parserAt (g + 1)).equality st0 = .ok (e, ⟨pre ++ u :: rest, pre.length, idc⟩))
    (h1 : (u.type == .AND) = false) :
    (parserAt (g + 2)).logicAnd st0 = .ok (e, ⟨pre ++ u :: rest, pre.length, idc⟩) := by
  rw [show g + 2 = (g + 1) + 1 from rfl, parserAt_succ]
  simp only [mkParser]
  rw [H, PRes.bind_ok]
  exact logicAndLoop_exit g e pre u rest idc h1

/-- Source `Parser.logic_or` wraps `logic_and` in its operator loop. -/
theorem lift_logicOr (g : Nat) (st0 : PState) (e : Expr) (pre : List Token)
    (u : Token) (rest : List Token) (idc : Nat)
    (H : (parserAt (g + 1)).logicAnd st0 = .ok (e, ⟨pre ++ u :: rest, pre.length, idc⟩))
    (h1 : (u.type == .OR) = false) :
    (parserAt (g + 2)).logicOr st0 = .ok (e, ⟨pre ++ u :: rest, pre.length, idc⟩) := by
  rw [show g + 2 = (g + 1) + 1 from rfl, parserAt_succ]
  simp only [mkParser]
  rw [H, PRes.bind_ok]
  exact logicOrLoop_exit g e pre u rest idc h1

/-- Source `Parser.ternary` returns the `logic_or` result unchanged when no `?`
follows. -/
theorem lift_ternary (g : Nat) (st0 : PState) (e : Expr) (pre : List Token)
    (u : Token) (rest : List Token) (idc : Nat)
    (H : (parserAt (g + 1)).logicOr st0 = .ok (e, ⟨pre ++ u :: rest, pre.length, idc⟩))
    (h1 : (u.type == .QUESTION) = false) :
    (parserAt (g + 2)).ternary st0 = .ok (e, ⟨pre ++ u :: rest, pre.length, idc⟩) := by
  rw [show g + 2 = (g + 1) + 1 from rfl, parserAt_succ]
  simp only [mkParser]
  rw [H, PRes.bind_ok]
  simp [nextTokenMatches, checkTokenType, pIsEOF, peekT,
    getElem_append_len, getElem_total_append_len, h1, PRes.bind_ok, PRes.pure_def]

/-- Source `Parser.assignment` returns the `ternary` result unchanged when no
`=` follows. -/
theorem lift_assignment (g : Nat) (st0 : PState) (e : Expr) (pre : List Token)
    (u : Token) (rest : List Token) (idc : Nat)
    (H : (parserAt (g + 1)).ternary st0 = .ok (e, ⟨pre ++ u :: rest, pre.length, idc⟩))
    (h1 : (u.type == .EQUAL) = false) :
    (parserAt (g + 2)).assignment st0 = .ok (e, ⟨pre ++ u :: rest, pre.length, idc⟩) := by
  rw [show g + 2 = (g + 1) + 1 from rfl, parserAt_succ]
  simp only [mkParser]
  rw [H, PRes.bind_ok]
  simp [nextTokenMatches, checkTokenType, pIsEOF, peekT,
    getElem_append_len, getElem_total_append_len, h1, PRes.bind_ok, PRes.pure_def]

/-- Source `Parser.expression` simply delegates to `assignment`. -/
theorem lift_expression (g : Nat) (st0 : PState) (r : PRes (Expr × PState))
    (H : (parserAt (g + 1)).assignment st0 = r) :
    (parserAt (g + 2)).expression st0 = r := by
  rw [show g + 2 = (g + 1) + 1 from rfl, parserAt_succ]
  simp only [mkParser]
  exact H

/-- Source `Parser.logic_or` (the production `lox_list` parses each list
element with) on a `NUMBER`/`STRING` token followed by `,` or `]`: consumes
exactly that token and yields the `Literal` node. -/
theorem elem_logicOr (g : Nat) (pre : List Token) (t u : Token) (rest : List Token)
    (idc : Nat) (ht : t.type = .NUMBER ∨ t.type = .STRING)
    (hu : u.type = .COMMA ∨ u.type = .RIGHT_BRACKET) :
    (parserAt (g + 12)).logicOr ⟨pre ++ t :: u :: rest, pre.length, idc⟩
      = .ok (.literal (litOfTok t.literal),
          ⟨(pre ++ [t]) ++ u :: rest, (pre ++ [t]).length, idc⟩) := by
  have ht1 : (t.type == .LEFT_BRACKET) = false := by rcases ht with h | h <;> simp [h]
  have ht2 : (t.type == .LEFT_PAREN) = false := by rcases ht with h | h <;> simp [h]
  have ht3 : (t.type == .BANG) = false := by rcases ht with h | h <;> simp [h]
  have ht4 : (t.type == .MINUS) = false := by rcases ht with h | h <;> simp [h]
  have hu1 : (u.type == .LEFT_PAREN) = false := by rcases hu with h | h <;> simp [h]
  have hu2 : (u.type == .LEFT_BRACKET) = false := by rcases hu with h | h <;> simp [h]
  have hu3 : (u.type == .DOT) = false := by rcases hu with h | h <;> simp [h]
  have hu4 : (u.type == .SLASH) = false := by rcases hu with h | h <;> simp [h]
  have hu5 : (u.type == .STAR) = false := by rcases hu with h | h <;> simp [h]
  have hu6 : (u.type == .MINUS) = false := by rcases hu with h | h <;> simp [h]
  have hu7 : (u.type == .PLUS) = false := by rcases hu with h | h <;> simp [h]
  have hu8 : (u.type == .LESS) = false := by rcases hu with h | h <;> simp [h]
  have hu9 : (u.type == .LESS_EQUAL) = false := by rcases hu with h | h <;> simp [h]
  have hu10 : (u.type == .GREATER) = false := by rcases hu with h | h <;> simp [h]
  have hu11 : (u.type == .GREATER_EQUAL) = false := by rcases hu with h | h <;> simp [h]
  have hu12 : (u.type == .BANG_EQUAL) = false := by rcases hu with h | h <;> simp [h]
  have hu13 : (u.type == .EQUAL_EQUAL) = false := by rcases hu with h | h <;> simp [h]
  have hu14 : (u.type == .AND) = false := by rcases hu with h | h <;> simp [h]
  have hu15 : (u.type == .OR) = false := by rcases hu with h | h <;> simp [h]
  have hh : (PState.mk (pre ++ t :: u :: rest) pre.length idc).tokens[
      (PState.mk (pre ++ t :: u :: rest) pre.length idc).pos]? = some t :=
    getElem_append_len pre t (u :: rest)
  have H1 := elem_primary g pre t u rest idc ht
  have H2 := lift_loxList g _ t _ hh ht1 H1
  have H3 := lift_loxListIndex _ _ _ _ _ _ _ H2 hu1 hu2
  have H4 := lift_grouping _ _ t _ hh ht2 H3
  have H5 := lift_call _ _ _ _ _ _ _ H4 hu1 hu3
  have H6 := lift_unary _ _ t _ hh ht3 ht4 H5
  have H7 := lift_factor _ _ _ _ _ _ _ H6 hu4 hu5
  have H8 := lift_term _ _ _ _ _ _ _ H7 hu6 hu7
  have H9 := lift_comparison _ _ _ _ _ _ _ H8 hu8 hu9 hu10 hu11
  have H10 := lift_equality _ _ _ _ _ _ _ H9 hu12 hu13
  have H11 := lift_logicAnd _ _ _ _ _ _ _ H10 hu14
  exact lift_logicOr _ _ _ _ _ _ _ H11 hu15

theorem commaJoin_length (ts : List Token) : (commaJoin ts).length = 2 * ts.length := by
  induction ts with
  | nil => rfl
  | cons t ts ih => simp [commaJoin, ih]; omega

/-- The comma-separated-items loop inside `Parser.lox_list`: on `, t1 , t2
... , tn ]` it parses each element with `logic_or` and returns the `Literal`
nodes, leaving the `]` unconsumed. -/
theorem listItems_parse (ts : List Token) : ∀ (g : Nat) (pre post : List Token) (idc : Nat),
    (∀ t ∈ ts, t.type = .NUMBER ∨ t.type = .STRING) →
    (parserAt (g + 13 * ts.length + 1)).listItems
        ⟨pre ++ commaJoin ts ++ tkn .RIGHT_BRACKET "]" :: post, pre.length, idc⟩
      = .ok (litItems ts,
          ⟨pre ++ commaJoin ts ++ tkn .RIGHT_BRACKET "]" :: post,
            pre.length + 2 * ts.length, idc⟩) := by
  induction ts with
  | nil =>
    intro g pre post idc _
    simp only [commaJoin, List.nil_append, List.length_nil, Nat.mul_zero, Nat.add_zero]
    rw [parserAt_succ]
    simp [mkParser, nextTokenMatches, checkTokenType, pIsEOF, peekT,
      getElem_append_len, getElem_total_append_len, litItems, tkn,
      PRes.bind_ok, PRes.pure_def]
  | cons t ts ih =>
    intro g pre post idc hts
    have ht : t.type = .NUMBER ∨ t.type = .STRING := hts t (by simp)
    have hts' : ∀ x ∈ ts, x.type = .NUMBER ∨ x.type = .STRING :=
      fun x hx => hts x (by simp [hx])
    obtain ⟨u, rest2, hsplit, hu⟩ :
        ∃ u rest2, commaJoin ts ++ tkn .RIGHT_BRACKET "]" :: post = u :: rest2 ∧
          (u.type = .COMMA ∨ u.type = .RIGHT_BRACKET) := by
      cases ts with
      | nil => exact ⟨_, _, rfl, Or.inr rfl⟩
      | cons a as => exact ⟨_, _, rfl, Or.inl rfl⟩
    simp only [commaJoin, List.length_cons, List.cons_append, List.append_assoc]
    rw [show 13 * (ts.length + 1) = 13 * ts.length + 13 from by ring, parserAt_succ]
    simp only [mkParser]
    rw [show pre.length + 2 * (ts.length + 1) = pre.length + 2 + 2 * ts.length from by omega]
    have HE := elem_logicOr (g + (13 * ts.length + 1)) (pre ++ [tkn .COMMA ","]) t u rest2
      idc ht hu
    rw [← hsplit] at HE
    simp only [List.append_assoc, List.cons_append, List.nil_append, List.length_append,
      List.length_cons, List.length_nil, Nat.zero_add, Nat.add_zero, tkn] at HE
    rw [show g + (13 * ts.length + 1) + 12 = g + (13 * ts.length + 13) from by omega] at HE
    have HI := ih (g + 12) (pre ++ [tkn .COMMA ",", t]) post idc hts'
    simp only [List.append_assoc, List.cons_append, List.nil_append, List.length_append,
      List.length_cons, List.length_nil, Nat.zero_add, Nat.add_zero, tkn] at HI
    rw [show g + 12 + 13 * ts.length + 1 = g + (13 * ts.length + 13) from by omega] at HI
    simp [nextTokenMatches, checkTokenType, pIsEOF, peekT, consumeTok,
      getElem_append_len, getElem_total_append_len, tkn, PRes.bind_ok, PRes.pure_def,
      HE, HI, litItems]

/-- Source `Parser.lox_list` on the token segment `[ t1 , ... , tn ]` (nonempty,
literal elements): consumes exactly the segment and yields the `LoxList`
(list-literal) node whose items are the parsed element expressions. -/
theorem seg_loxList (g : Nat) (t : Token) (ts : List Token) (pre post : List Token)
    (idc : Nat) (ht : t.type = .NUMBER ∨ t.type = .STRING)
    (hts : ∀ x ∈ ts, x.type = .NUMBER ∨ x.type = .STRING) :
    (parserAt (g + 13 * ts.length + 14)).loxList
        ⟨pre ++ listLitSeg (t :: ts) ++ post, pre.length, idc⟩
      = .ok (.listLit (litItems (t :: ts)),
          ⟨pre ++ listLitSeg (t :: ts) ++ post, (pre ++ listLitSeg (t :: ts)).length, idc⟩) := by
  have ht5 : (t.type == .RIGHT_BRACKET) = false := by rcases ht with h | h <;> simp [h]
  obtain ⟨u, rest2, hsplit, hu⟩ :
      ∃ u rest2, commaJoin ts ++ tkn .RIGHT_BRACKET "]" :: post = u :: rest2 ∧
        (u.type = .COMMA ∨ u.type = .RIGHT_BRACKET) := by
    cases ts with
    | nil => exact ⟨_, _, rfl, Or.inr rfl⟩
    | cons a as => exact ⟨_, _, rfl, Or.inl rfl⟩
  rw [show (pre ++ listLitSeg (t :: ts)).length = pre.length + 2 + 2 * ts.length + 1 from by
    simp [listLitSeg, commaJoin_length]; omega]
  rw [show g + 13 * ts.length + 14 = (g + (13 * ts.length + 13)) + 1 from by omega,
    parserAt_succ]
  simp only [listLitSeg, List.cons_append, List.append_assoc, List.nil_append, mkParser]
  have HE := elem_logicOr (g + (13 * ts.length + 1)) (pre ++ [tkn .LEFT_BRACKET "["]) t u
    rest2 idc ht hu
  rw [← hsplit] at HE
  simp only [List.append_assoc, List.cons_append, List.nil_append, List.length_append,
    List.length_cons, List.length_nil, Nat.zero_add, Nat.add_zero, tkn] at HE
  rw [show g + (13 * ts.length + 1) + 12 = g + (13 * ts.length + 13) from by omega] at HE
  have HI := listItems_parse ts (g + 12) (pre ++ [tkn .LEFT_BRACKET "[", t]) post idc hts
  simp only [List.append_assoc, List.cons_append, List.nil_append, List.length_append,
    List.length_cons, List.length_nil, Nat.zero_add, Nat.add_zero, tkn] at HI
  rw [show g + 12 + 13 * ts.length + 1 = g + (13 * ts.length + 13) from by omega] at HI
  have hRB : (pre ++ tkn .LEFT_BRACKET "[" :: t ::
        (commaJoin ts ++ tkn .RIGHT_BRACKET "]" :: post))[pre.length + 2 + 2 * ts.length]?
      = some (tkn .RIGHT_BRACKET "]") := by
    rw [show pre ++ tkn .LEFT_BRACKET "[" :: t ::
          (commaJoin ts ++ tkn .RIGHT_BRACKET "]" :: post)
        = (pre ++ tkn .LEFT_BRACKET "[" :: t :: commaJoin ts) ++ tkn .RIGHT_BRACKET "]" :: post
      from by simp,
      show pre.length + 2 + 2 * ts.length
        = (pre ++ tkn .LEFT_BRACKET "[" :: t :: commaJoin ts).length from by
        simp [commaJoin_length]; omega]
    exact getElem_append_len _ _ _
  simp only [tkn] at hRB
  simp [nextTokenMatches, checkTokenType, pIsEOF, peekT, consumeTok, consumeIfMatching,
    getElem_append_len, getElem_append_len1, getElem_total_append_len,
    getElem_total_append_len1, tkn, PRes.bind_ok, PRes.pure_def,
    ht5, HE, HI, hRB, litItems]

/-- Source `Parser.expression` on any token stream whose next tokens form a
list literal `[ t1 , ... , tn ]` of literal elements followed by an
expression-ending token: produces exactly the list-literal node whose items
are the parsed element expressions, consuming exactly the bracketed
segment. -/
theorem listLit_parse (ts : List Token) (g : Nat) (pre post : List Token) (w : Token)
    (idc : Nat) (hne : ts ≠ [])
    (hts : ∀ t ∈ ts, t.type = .NUMBER ∨ t.type = .STRING)
    (hw : w.type = .SEMICOLON ∨ w.type = .RIGHT_PAREN ∨ w.type = .COMMA ∨ w.type = .EOF) :
    (parserAt (g + 13 * ts.length + 14)).expression
        ⟨pre ++ listLitSeg ts ++ w :: post, pre.length, idc⟩
      = .ok (.listLit (litItems ts),
          ⟨pre ++ listLitSeg ts ++ w :: post, (pre ++ listLitSeg ts).length, idc⟩) := by
  cases ts with
  | nil => exact absurd rfl hne
  | cons t ts =>
    have hts' : ∀ x ∈ ts, x.type = .NUMBER ∨ x.type = .STRING :=
      fun x hx => hts x (by simp [hx])
    have ht : t.type = .NUMBER ∨ t.type = .STRING := hts t (by simp)
    have hw1 : (w.type == .LEFT_PAREN) = false := by rcases hw with h | h | h | h <;> simp [h]
    have hw2 : (w.type == .LEFT_BRACKET) = false := by rcases hw with h | h | h | h <;> simp [h]
    have hw3 : (w.type == .DOT) = false := by rcases hw with h | h | h | h <;> simp [h]
    have hw4 : (w.type == .SLASH) = false := by rcases hw with h | h | h | h <;> simp [h]
    have hw5 : (w.type == .STAR) = false := by rcases hw with h | h | h | h <;> simp [h]
    have hw6 : (w.type == .MINUS) = false := by rcases hw with h | h | h | h <;> simp [h]
    have hw7 : (w.type == .PLUS) = false := by rcases hw with h | h | h | h <;> simp [h]
    have hw8 : (w.type == .LESS) = false := by rcases hw with h | h | h | h <;> simp [h]
    have hw9 : (w.type == .LESS_EQUAL) = false := by
      rcases hw with h | h | h | h <;> simp [h]
    have hw10 : (w.type == .GREATER) = false := by rcases hw with h | h | h | h <;> simp [h]
    have hw11 : (w.type == .GREATER_EQUAL) = false := by
      rcases hw with h | h | h | h <;> simp [h]
    have hw12 : (w.type == .BANG_EQUAL) = false := by
      rcases hw with h | h | h | h <;> simp [h]
    have hw13 : (w.type == .EQUAL_EQUAL) = false := by
      rcases hw with h | h | h | h <;> simp [h]
    have hw14 : (w.type == .AND) = false := by rcases hw with h | h | h | h <;> simp [h]
    have hw15 : (w.type == .OR) = false := by rcases hw with h | h | h | h <;> simp [h]
    have hw16 : (w.type == .QUESTION) = false := by rcases hw with h | h | h | h <;> simp [h]
    have hw17 : (w.type == .EQUAL) = false := by rcases hw with h | h | h | h <;> simp [h]
    have hhead : (pre ++ listLitSeg (t :: ts) ++ w :: post)[pre.length]?
        = some (tkn .LEFT_BRACKET "[") := by
      rw [show pre ++ listLitSeg (t :: ts) ++ w :: post
          = pre ++ (tkn .LEFT_BRACKET "[") :: (t :: (commaJoin ts ++ [tkn .RIGHT_BRACKET "]"])
              ++ w :: post) from by simp [listLitSeg]]
      exact getElem_append_len _ _ _
    have H0 := seg_loxList g t ts pre (w :: post) idc ht hts'
    have H1 := lift_loxListIndex _ _ _ _ _ _ _ H0 hw1 hw2
    rw [show g + 13 * ts.length + 13 + 2 = g + 13 * ts.length + 15 from by omega] at H1
    have H2 := lift_grouping _ _ (tkn .LEFT_BRACKET "[") _ hhead rfl H1
    rw [show g + 13 * ts.length + 14 + 2 = g + 13 * ts.length + 16 from by omega] at H2
    have H3 := lift_call _ _ _ _ _ _ _ H2 hw1 hw3
    rw [show g + 13 * ts.length + 15 + 2 = g + 13 * ts.length + 17 from by omega] at H3
    have H4 := lift_unary _ _ (tkn .LEFT_BRACKET "[") _ hhead rfl rfl H3
    rw [show g + 13 * ts.length + 16 + 2 = g + 13 * ts.length + 18 from by omega] at H4
    have H5 := lift_factor _ _ _ _ _ _ _ H4 hw4 hw5
    rw [show g + 13 * ts.length + 17 + 2 = g + 13 * ts.length + 19 from by omega] at H5
    have H6 := lift_term _ _ _ _ _ _ _ H5 hw6 hw7
    rw [show g + 13 * ts.length + 18 + 2 = g + 13 * ts.length + 20 from by omega] at H6
    have H7 := lift_comparison _ _ _ _ _ _ _ H6 hw8 hw9 hw10 hw11
    rw [show g + 13 * ts.length + 19 + 2 = g + 13 * ts.length + 21 from by omega] at H7
    have H8 := lift_equality _ _ _ _ _ _ _ H7 hw12 hw13
    rw [show g + 13 * ts.length + 20 + 2 = g + 13 * ts.length + 22 from by omega] at H8
    have H9 := lift_logicAnd _ _ _ _ _ _ _ H8 hw14
    rw [show g + 13 * ts.length + 21 + 2 = g + 13 * ts.length + 23 from by omega] at H9
    have H10 := lift_logicOr _ _ _ _ _ _ _ H9 hw15
    rw [show g + 13 * ts.length + 22 + 2 = g + 13 * ts.length + 24 from by omega] at H10
    have H11 := lift_ternary _ _ _ _ _ _ _ H10 hw16
    rw [show g + 13 * ts.length + 23 + 2 = g + 13 * ts.length + 25 from by omega] at H11
    have H12 := lift_assignment _ _ _ _ _ _ _ H11 hw17
    rw [show g + 13 * ts.length + 24 + 2 = g + 13 * ts.length + 26 from by omega] at H12
    have H13 := lift_expression _ _ _ H12
    rw [show g + 13 * ts.length + 25 + 2 = g + 13 * ts.length + 27 from by omega] at H13
    rw [show g + 13 * (t :: ts).length + 14 = g + 13 * ts.length + 27 from by
      simp [List.length_cons]; ring]
    exact H13


/-- Evaluating a list of `Literal` expressions yields their payload values and
leaves the state unchanged. -/
theorem evalExprs_literals (ls : List LitVal) : ∀ (g : Nat) (st : IState),
    evalExprs (g + ls.length + 1) (ls.map .literal) st = (.ok (ls.map valueOfLit), st) := by
  induction ls with
  | nil =>
    intro g st
    rfl
  | cons v ls ih =>
    intro g st
    rw [show g + (v :: ls).length + 1 = (g + ls.length + 1) + 1 from by simp; omega,
      show evalExprs ((g + ls.length + 1) + 1)
        = (mkInterp (interpAt (g + ls.length + 1))).evalExprs from rfl]
    show (match (interpAt (g + ls.length + 1)).evalExpr (.literal v) st with
      | (.ok v, st) =>
        match (interpAt (g + ls.length + 1)).evalExprs (ls.map .literal) st with
        | (.ok vs, st) => (Res.ok (v :: vs), st)
        | (.err t m, st) => (.err t m, st)
        | (.ret w, st) => (.ret w, st)
        | (.host m, st) => (.host m, st)
        | (.out, st) => (.out, st)
      | (.err t m, st) => (.err t m, st)
      | (.ret w, st) => (.ret w, st)
      | (.host m, st) => (.host m, st)
      | (.out, st) => (.out, st)) = (.ok (valueOfLit v :: ls.map valueOfLit), st)
    rw [show (interpAt (g + ls.length + 1)).evalExpr (.literal v) st
        = (.ok (valueOfLit v), st) from by
      rw [show g + ls.length + 1 = (g + ls.length) + 1 from rfl, interpAt_succ]
      rfl]
    have h := ih g st
    rw [show evalExprs (g + ls.length + 1) = (interpAt (g + ls.length + 1)).evalExprs
      from rfl] at h
    simp only [h]

/-- Source `visitLoxListExpr`: evaluating a list literal of `Literal` items
allocates a fresh list on the heap holding exactly their values and returns a
reference to it. -/
theorem listLit_eval (ls : List LitVal) (g : Nat) (st : IState) :
    evalExpr (g + ls.length + 2) (.listLit (ls.map .literal)) st
      = (.ok (.listRef st.listHeap.length), { st with listHeap := st.listHeap ++ [ls.map valueOfLit] }) := by
  rw [show g + ls.length + 2 = (g + ls.length + 1) + 1 from rfl,
    show evalExpr ((g + ls.length + 1) + 1)
      = (mkInterp (interpAt (g + ls.length + 1))).evalExpr from rfl]
  show (match (interpAt (g + ls.length + 1)).evalExprs (ls.map .literal) st with
    | (.ok vs, st) =>
      (Res.ok (Value.listRef st.listHeap.length), { st with listHeap := st.listHeap ++ [vs] })
    | (.err t m, st) => (.err t m, st)
    | (.ret v, st) => (.ret v, st)
    | (.host m, st) => (.host m, st)
    | (.out, st) => (.out, st)) = _
  have h := evalExprs_literals ls g st
  rw [show evalExprs (g + ls.length + 1) = (interpAt (g + ls.length + 1)).evalExprs
    from rfl] at h
  simp only [h]

/-- Source `LoxListAppendItem.call`: appending extends the stored list with the
argument and returns nil. -/
theorem list_append_eval (g : Nat) (l : Nat) (xs : List Value) (v : Value) (st : IState)
    (h : st.listHeap[l]? = some xs) :
    callValue (g + 1) (.appendMethod l) [v] st
      = (.ok .nil, { st with listHeap := st.listHeap.set l (xs ++ [v]) }) := by
  rw [show callValue (g + 1) = (mkInterp (interpAt g)).callValue from rfl]
  show (match st.listHeap[l]? with
    | some xs => (Res.ok Value.nil, { st with listHeap := st.listHeap.set l (xs ++ [v]) })
    | Option.none => (.host "bad list id", st)) = _
  rw [h]

/-- Helper facts for nonnegative list indexing. -/
theorem validate_index_nat (xs : List Value) (n : Nat) (h2 : n < xs.length) :
    validate_index xs (.num n) = .ok n := by
  rw [validate_index, if_neg (by rw [not_le]; exact_mod_cast h2)]
  simp [pyInt]

theorem pyListGet_nat (xs : List Value) (n : Nat) (h2 : n < xs.length) :
    pyListGet xs n = .ok (xs.get ⟨n, h2⟩) := by
  rw [pyListGet]
  simp only [show ((n : Int) < 0) = False from by simp, if_false, Int.toNat_natCast]
  rw [dif_pos ⟨by omega, h2⟩]

theorem pyListPop_nat (xs : List Value) (n : Nat) (h2 : n < xs.length) :
    pyListPop xs n = .ok (xs.get ⟨n, h2⟩, xs.take n ++ xs.drop (n + 1)) := by
  rw [pyListPop]
  simp only [show ((n : Int) < 0) = False from by simp, if_false, Int.toNat_natCast]
  rw [dif_pos ⟨by omega, h2⟩]

/-- Source `LoxListInstance.get_item` at a valid nonnegative index returns the
stored element. -/
theorem list_get_eval (l : Nat) (xs : List Value) (n : Nat) (st : IState)
    (h1 : st.listHeap[l]? = some xs) (h2 : n < xs.length) :
    listGetItem l (.num n) st = .ok (xs.get ⟨n, h2⟩) := by
  simp only [listGetItem, h1, validate_index_nat xs n h2, pyListGet_nat xs n h2]

/-- Source `LoxListDeleteItem.call` at a valid nonnegative index removes and
returns the stored element. -/
theorem list_delete_eval (g : Nat) (l : Nat) (xs : List Value) (n : Nat) (st : IState)
    (h1 : st.listHeap[l]? = some xs) (h2 : n < xs.length) :
    callValue (g + 1) (.deleteMethod l) [.num n] st
      = (.ok (xs.get ⟨n, h2⟩),
          { st with listHeap := st.listHeap.set l (xs.take n ++ xs.drop (n + 1)) }) := by
  rw [show callValue (g + 1) = (mkInterp (interpAt g)).callValue from rfl]
  show (match st.listHeap[l]? with
    | some xs =>
      match validate_index xs ((([Value.num n].headD .nil))) with
      | .ok i =>
        match pyListPop xs i with
        | .ok (removed, xs2) => (Res.ok removed, { st with listHeap := st.listHeap.set l xs2 })
        | .err t m => (.err t m, st)
        | .ret v => (.ret v, st)
        | .host m => (.host m, st)
        | .out => (.out, st)
      | .err t m => (.err t m, st)
      | .ret v => (.ret v, st)
      | .host m => (.host m, st)
      | .out => (.out, st)
    | Option.none => (.host "bad list id", st)) = _
  simp only [h1, List.headD, validate_index_nat xs n h2, pyListPop_nat xs n h2]

/-! ## The claims

Rational arithmetic is marked reducible in this section so that concrete
program runs evaluate by reduction (`Rat.add` and friends are
`@[irreducible]` by default purely as an elaboration-performance measure). -/

section Claims

set_option allowUnsafeReducibility true in
attribute [local semireducible] Rat.add Rat.sub Rat.mul Rat.div Rat.inv Rat.neg
  Rat.normalize Nat.gcd

set_option maxRecDepth 100000
set_option maxHeartbeats 1600000

/-- C9: `is_truthy` returns false exactly on `Nil` and `Bool(false)`, and
true on every other value, including the number 0, the empty string, and an
(empty or not) list. -/
theorem claim_C9 :
    (∀ v : Value, is_truthy v = false ↔ (v = Value.nil ∨ v = Value.bool false)) ∧
    is_truthy (Value.num 0) = true ∧
    is_truthy (Value.str "") = true ∧
    (∀ l : Nat, is_truthy (Value.listRef l) = true) := by
  refine ⟨fun v => ?_, rfl, rfl, fun l => rfl⟩
  cases v <;> simp [is_truthy]

/-- C10: the equality operator identifies booleans with numbers through host
equality — `true == 1` and `false == 0` evaluate to `Bool(true)` and
`true != 1` to `Bool(false)` — while `Nil` compares equal only to `Nil`. -/
theorem claim_C10 :
    (evalExpr 2 (.binary (.literal (.bool true)) (tkn .EQUAL_EQUAL "==")
        (.literal (.num 1))) (initIState [])).1 = Res.ok (Value.bool true) ∧
    (evalExpr 2 (.binary (.literal (.bool false)) (tkn .EQUAL_EQUAL "==")
        (.literal (.num 0))) (initIState [])).1 = Res.ok (Value.bool true) ∧
    (evalExpr 2 (.binary (.literal (.bool true)) (tkn .BANG_EQUAL "!=")
        (.literal (.num 1))) (initIState [])).1 = Res.ok (Value.bool false) ∧
    (∀ v : Value, is_equal Value.nil v = true ↔ v = Value.nil) ∧
    (∀ v : Value, is_equal v Value.nil = true ↔ v = Value.nil) := by
  refine ⟨by rfl, by rfl, by rfl, fun v => ?_, fun v => ?_⟩ <;>
    cases v <;> simp [is_equal, pyEq]

/-- C3 (code bug): `visitUnaryExpr` and `visitGroupingExpr` are todo-marked
placeholders.  For every operator token, operand expression and state,
evaluating the unary expression returns the operator token itself (the
operand is not even evaluated), and evaluating a grouping returns the
sub-expression AST node itself; in particular `!true` does not evaluate to
`Bool(false)`, `-2` does not evaluate to `-2`, and `Grouping(1)` does not
evaluate to `1`, as the claim (and the spec for a conforming evaluator)
requires. -/
theorem claim_C3_bug :
    (∀ (fuel : Nat) (operator : Token) (right_side : Expr) (st : IState),
        evalExpr (fuel + 1) (.unary operator right_side) st
          = (.ok (.tokenVal operator), st)) ∧
    (∀ (fuel : Nat) (e : Expr) (st : IState),
        evalExpr (fuel + 1) (.grouping e) st = (.ok (.astVal e), st)) ∧
    (evalExpr 2 (.unary (tkn .BANG "!") (.literal (.bool true))) (initIState [])).1
      ≠ Res.ok (Value.bool false) ∧
    (evalExpr 2 (.unary (tkn .MINUS "-") (.literal (.num 2))) (initIState [])).1
      ≠ Res.ok (Value.num (-2)) ∧
    (evalExpr 2 (.grouping (.literal (.num 1))) (initIState [])).1
      ≠ Res.ok (Value.num 1) :=
  ⟨fun _ _ _ _ => rfl, fun _ _ _ => rfl,
   fun h => Value.noConfusion (Res.ok.inj h),
   fun h => Value.noConfusion (Res.ok.inj h),
   fun h => Value.noConfusion (Res.ok.inj h)⟩

/-- C7: for the numeric operators `-`, `*`, `/`, `<`, `<=`, `>`, `>=`, the
binary-operator dispatch of `visitBinaryExpr` coincides with the spec's
description: a non-number operand raises "Operands must be numbers.", `/`
with zero right operand raises the divide-by-zero error, and otherwise the
exact arithmetic/comparison result is produced; no other outcome is
possible. -/
theorem claim_C7 (left_operand right_operand : Value) (t : Token)
    (h : t.type = .MINUS ∨ t.type = .STAR ∨ t.type = .SLASH ∨ t.type = .LESS ∨
         t.type = .LESS_EQUAL ∨ t.type = .GREATER ∨ t.type = .GREATER_EQUAL) :
    visitBinaryOp t left_operand right_operand
      = specNumericOutcome t left_operand right_operand := by
  obtain ⟨ty, lex, lit⟩ := t
  simp only [Token.type] at h
  rcases h with h | h | h | h | h | h | h <;> subst h <;>
    cases left_operand <;> cases right_operand <;>
      simp [visitBinaryOp, specNumericOutcome]

/-- Witness for C7 at a concrete input: `6 - 2` follows the spec outcome and
equals 4. -/
theorem claim_C7_witness :
    visitBinaryOp (tkn .MINUS "-") (Value.num 6) (Value.num 2)
      = specNumericOutcome (tkn .MINUS "-") (Value.num 6) (Value.num 2) ∧
    specNumericOutcome (tkn .MINUS "-") (Value.num 6) (Value.num 2)
      = Res.ok (Value.num 4) :=
  ⟨claim_C7 (Value.num 6) (Value.num 2) (tkn .MINUS "-") (Or.inl rfl),
   by simp [specNumericOutcome, tkn]; norm_num⟩

/-- C8: block and function-body execution restore the interpreter's previous
current-environment handle on every exit path — normal completion, a
propagating runtime error, and a propagating return signal (as well as the
embedding's host-error and fuel-exhaustion outcomes). -/
theorem claim_C8 :
    (∀ (fuel : Nat) (statements : List Stmt) (envId : Nat) (st : IState),
       ((executeBlock fuel statements envId st).2).environment = st.environment) ∧
    (∀ (fuel : Nat) (f : LoxFunctionV) (args : List Value) (st : IState),
       ((callFunction fuel f args st).2).environment = st.environment) :=
  ⟨executeBlock_environment, callFunction_environment⟩

/-- C1: retrieving a non-field property from an instance whose class has a
method of that name yields that method bound to the instance; calling a class
whose method table has `init` constructs a fresh `Instance` and invokes the
bound `init` with the call's arguments (returning the instance); and the
program `class Greeter ... Greeter("x").hi();` prints the single line
`hi x`.  (`LoxFunction.bind` itself is modelled from the spec — see
`loxFunctionBind` — since its definition is absent from the snapshot.) -/
theorem claim_C1 :
    (∀ (i : Nat) (st : IState) (o : InstObj) (property_name : Token) (m : LoxFunctionV),
        st.insts[i]? = some o →
        tdictLookup property_name o.instance_properties = Option.none →
        find_method o.lox_class property_name.lexeme = some m →
        instanceGet i property_name st =
          (Res.ok (Value.function (loxFunctionBind m i st).1), (loxFunctionBind m i st).2)) ∧
    (∀ (fuel : Nat) (c : LoxClassV) (args : List Value) (st : IState) (initf : LoxFunctionV),
        find_method c "init" = some initf →
        callValue (fuel + 1) (Value.cls c) args st =
          (let st1 : IState := { st with insts := st.insts ++ [⟨c, []⟩] }
           let b := loxFunctionBind initf st.insts.length st1
           match callFunction fuel b.1 args b.2 with
           | (.ok _, st3) => (Res.ok (Value.instanceRef st.insts.length), st3)
           | (.err t msg, st3) => (.err t msg, st3)
           | (.ret v, st3) => (.ret v, st3)
           | (.host msg, st3) => (.host msg, st3)
           | (.out, st3) => (.out, st3))) ∧
    (runLox greeterSrc 100).map RunRes.output = some ["hi x"] := by
  refine ⟨?_, ?_, by decide⟩
  · intro i st o property_name m h1 h2 h3
    simp [instanceGet, h1, h2, h3, loxFunctionBind, newEnv]
  · intro fuel c args st initf h
    simp only [callValue, interpAt_succ, mkInterp, h, callFunction]

/-- Witness for C1's quantified parts on a concrete one-method class. -/
theorem claim_C1_witness :
    instanceGet 0 (identTok "init") witState =
      (Res.ok (Value.function (loxFunctionBind witInitFn 0 witState).1),
        (loxFunctionBind witInitFn 0 witState).2) ∧
    callValue (2 + 1) (Value.cls witClass) [] (initIState []) =
      (let st1 : IState :=
        { (initIState []) with insts := (initIState []).insts ++ [⟨witClass, []⟩] }
       let b := loxFunctionBind witInitFn (initIState []).insts.length st1
       match callFunction 2 b.1 [] b.2 with
       | (.ok _, st3) => (Res.ok (Value.instanceRef (initIState []).insts.length), st3)
       | (.err t msg, st3) => (.err t msg, st3)
       | (.ret v, st3) => (.ret v, st3)
       | (.host msg, st3) => (.host msg, st3)
       | (.out, st3) => (.out, st3)) :=
  ⟨claim_C1.1 0 witState ⟨witClass, []⟩ (identTok "init") witInitFn rfl rfl rfl,
   claim_C1.2.1 2 witClass [] (initIState []) witInitFn rfl⟩

/-- Counterexample to C2 as stated: fed the actual source text
`var x=[1,2,3]; ...`, the pipeline prints nothing at all (the scanner has no
branch for `[` or `]`, reports "Unexpected character." for them, and the
mangled token stream then fails to parse), instead of printing 4, 1, 2. -/
theorem claim_C2_counterexample :
    (runLox listSrc 100).map (fun r => (r.output, r.had_error)) = some ([], true) := by
  decide

/-- C2 (amended to the token level): for every token stream containing
a list literal of literal-token elements in expression position — any
nonempty element list, any enclosing prefix and suffix, any following
expression-terminating token — `Parser.expression` produces exactly the
list-literal AST node whose items are the parsed element expressions,
consuming exactly the bracketed segment; for every state, evaluating a list
literal of literal items allocates a fresh list value holding exactly their
values; every stored list value supports append (extends it with the
argument), delete (removes and returns the element at a valid nonnegative
index) and indexed get (returns that element); and the token program for
`var x=[1,2,3]; x.append(4); print x[3]; print x.delete(0); print x[0];`
parses to that AST and prints the lines 4, 1, 2. -/
theorem claim_C2 :
    (∀ (ts : List Token) (g : Nat) (pre post : List Token) (w : Token) (idc : Nat),
        ts ≠ [] →
        (∀ t ∈ ts, t.type = .NUMBER ∨ t.type = .STRING) →
        (w.type = .SEMICOLON ∨ w.type = .RIGHT_PAREN ∨ w.type = .COMMA ∨ w.type = .EOF) →
        (parserAt (g + 13 * ts.length + 14)).expression
            ⟨pre ++ listLitSeg ts ++ w :: post, pre.length, idc⟩
          = .ok (.listLit (litItems ts),
              ⟨pre ++ listLitSeg ts ++ w :: post, (pre ++ listLitSeg ts).length, idc⟩)) ∧
    (∀ (ls : List LitVal) (g : Nat) (st : IState),
        evalExpr (g + ls.length + 2) (.listLit (ls.map .literal)) st
          = (.ok (.listRef st.listHeap.length),
              { st with listHeap := st.listHeap ++ [ls.map valueOfLit] })) ∧
    (∀ (g l : Nat) (xs : List Value) (v : Value) (st : IState),
        st.listHeap[l]? = some xs →
        callValue (g + 1) (.appendMethod l) [v] st
          = (.ok .nil, { st with listHeap := st.listHeap.set l (xs ++ [v]) })) ∧
    (∀ (g l : Nat) (xs : List Value) (n : Nat) (st : IState)
        (_h1 : st.listHeap[l]? = some xs) (h2 : n < xs.length),
        callValue (g + 1) (.deleteMethod l) [.num n] st
          = (.ok (xs.get ⟨n, h2⟩),
              { st with listHeap := st.listHeap.set l (xs.take n ++ xs.drop (n + 1)) })) ∧
    (∀ (l : Nat) (xs : List Value) (n : Nat) (st : IState)
        (_h1 : st.listHeap[l]? = some xs) (h2 : n < xs.length),
        listGetItem l (.num n) st = .ok (xs.get ⟨n, h2⟩)) ∧
    parseTokens listToks = some (listAst, []) ∧
    ((resolveProgram 1000 listAst).bind fun r => interpret 100 listAst r.1)
      = some (["4", "1", "2"], false) :=
  ⟨listLit_parse, listLit_eval, list_append_eval, list_delete_eval, list_get_eval,
   by rfl, by decide⟩

/-- Witness for C2 at concrete inputs: parsing `[ 7 ] ;` from position 0
yields the one-item list literal; appending `true` to the stored list `[9]`
gives `[9, true]`; deleting index 1 of `[4, 5]` returns `5` and leaves `[4]`;
and indexing `[8]` at 0 returns `8`. -/
theorem claim_C2_witness :
    (parserAt (0 + 13 * [numTok 7 "7"].length + 14)).expression
        ⟨[] ++ listLitSeg [numTok 7 "7"] ++ tkn .SEMICOLON ";" :: [], 0, 0⟩
      = .ok (.listLit (litItems [numTok 7 "7"]),
          ⟨[] ++ listLitSeg [numTok 7 "7"] ++ tkn .SEMICOLON ";" :: [],
            ([] ++ listLitSeg [numTok 7 "7"]).length, 0⟩) ∧
    callValue (0 + 1) (.appendMethod 0) [.bool true]
        { initIState [] with listHeap := [[Value.num 9]] }
      = (.ok .nil, { initIState [] with listHeap := [[Value.num 9, Value.bool true]] }) ∧
    callValue (0 + 1) (.deleteMethod 0) [.num 1]
        { initIState [] with listHeap := [[Value.num 4, Value.num 5]] }
      = (.ok (.num 5), { initIState [] with listHeap := [[Value.num 4]] }) ∧
    listGetItem 0 (.num 0) { initIState [] with listHeap := [[Value.num 8]] }
      = .ok (.num 8) :=
  ⟨claim_C2.1 [numTok 7 "7"] 0 [] [] (tkn .SEMICOLON ";") 0 (by decide) (by decide)
      (Or.inl rfl),
   claim_C2.2.2.1 0 0 [Value.num 9] (Value.bool true)
     { initIState [] with listHeap := [[Value.num 9]] } rfl,
   claim_C2.2.2.2.1 0 0 [Value.num 4, Value.num 5] 1
     { initIState [] with listHeap := [[Value.num 4, Value.num 5]] } rfl (by decide),
   claim_C2.2.2.2.2.1 0 [Value.num 8] 0
     { initIState [] with listHeap := [[Value.num 8]] } rfl (by decide)⟩

/-- C4 (code bug): `resolve_local` scans the scope stack from the top but
has no early exit, so a later (outer) hit overwrites the inner one: for
`{ var a = 1; { var a = 2; print a; } }` the print's variable node (id 0) is
recorded at depth 1 — the outer scope — and the program prints `1`, where
the claim (and the spec's "on first hit record depth") require depth 0 and
output `2`. -/
theorem claim_C4_bug :
    ((scan shadowSrc).bind fun p => (parseTokens p.1).bind fun q => resolveProgram 1000 q.1)
      = some ([(0, 1)], []) ∧
    (runLox shadowSrc 100).map RunRes.output = some ["1"] :=
  ⟨by decide, by decide⟩

/-- Counterexample to C5 as stated: on the source `"@"` the scanner reports
"Unexpected character.", yet `Lox.run` still invokes the parser on the token
list — the phase trace is `["scan", "parse"]`, not `["scan"]`. -/
theorem claim_C5_counterexample : runLox "@" 100 = some runAtSign := by decide

/-- C5 (amended): `Lox.run` always invokes the parser (even after scan
errors); the sticky `had_error` flag is consulted only after parsing, so
scan or parse errors do prevent the resolver and the interpreter from
running (no output), and resolve errors prevent the interpreter from
running — whenever the run completes without a host-level crash. -/
theorem claim_C5 (source : String) (interpFuel : Nat) (r : RunRes)
    (h : runLox source interpFuel = some r) :
    "parse" ∈ r.phases ∧
    (r.had_error = true ↔
      (r.scan_errors ≠ [] ∨ r.parse_errors ≠ [] ∨ r.resolve_errors ≠ [])) ∧
    ((r.scan_errors ≠ [] ∨ r.parse_errors ≠ []) →
      r.phases = ["scan", "parse"] ∧ r.output = []) ∧
    (r.resolve_errors ≠ [] →
      r.phases = ["scan", "parse", "resolve"] ∧ r.output = []) := by
  unfold runLox at h
  rcases hscan : scan source with _ | ⟨tokens, scanErrs⟩
  · rw [hscan] at h
    exact Option.noConfusion h
  simp only [hscan] at h
  rcases hparse : parseTokens tokens with _ | ⟨statements, parseErrs⟩
  · rw [hparse] at h
    exact Option.noConfusion h
  simp only [hparse] at h
  by_cases hfe : scanErrs ≠ [] ∨ parseErrs ≠ []
  · rw [if_pos hfe] at h
    injection h with h
    subst h
    refine ⟨by simp, ⟨fun _ => hfe.elim Or.inl (fun b => Or.inr (Or.inl b)), fun _ => rfl⟩,
      fun _ => ⟨rfl, rfl⟩, ?_⟩
    intro hre
    exact absurd rfl hre
  · rw [if_neg hfe] at h
    push_neg at hfe
    obtain ⟨hs, hp⟩ := hfe
    subst hs; subst hp
    rcases hres : resolveProgram (100 * (tokens.length + 1)) statements with
      _ | ⟨resolved, resolveErrs⟩
    · rw [hres] at h
      exact Option.noConfusion h
    simp only [hres] at h
    by_cases hre : resolveErrs ≠ []
    · rw [if_pos hre] at h
      injection h with h
      subst h
      exact ⟨by simp, by simp [hre], by simp, fun _ => ⟨rfl, rfl⟩⟩
    · rw [if_neg hre] at h
      push_neg at hre
      subst hre
      rcases hint : interpret interpFuel statements resolved with
        _ | ⟨output, hadRuntime⟩
      · rw [hint] at h
        exact Option.noConfusion h
      simp only [hint] at h
      injection h with h
      subst h
      exact ⟨by simp, by simp, by simp, by simp⟩

/-- Witness for C5 on the concrete source `"@"`. -/
theorem claim_C5_witness :
    "parse" ∈ runAtSign.phases ∧
    (runAtSign.had_error = true ↔
      (runAtSign.scan_errors ≠ [] ∨ runAtSign.parse_errors ≠ [] ∨
        runAtSign.resolve_errors ≠ [])) ∧
    ((runAtSign.scan_errors ≠ [] ∨ runAtSign.parse_errors ≠ []) →
      runAtSign.phases = ["scan", "parse"] ∧ runAtSign.output = []) ∧
    (runAtSign.resolve_errors ≠ [] →
      runAtSign.phases = ["scan", "parse", "resolve"] ∧ runAtSign.output = []) :=
  claim_C5 "@" 100 runAtSign (by decide)

/-- Counterexample to C6 as stated: for the source `"a\nb` (an unterminated
string literal opened on line 1 and spanning a newline), the scanner reports
`UNTERMINATED_STRING` at line 2 — the line reached at end of input, not the
line of the opening quote — and it does append a STRING token carrying the
consumed characters. -/
theorem claim_C6_counterexample :
    scan "\"a\nb" = some
      ([⟨.STRING, "a\nb", .str "a\nb"⟩, ⟨.EOF, EOF_LEXEME, .none⟩],
        [(2, UNTERMINATED_STRING)]) := by decide

/-- The `scan_string` loop on input with no closing quote: consumes
everything, counts the newlines into `line`, and reports not-closed. -/
theorem scanStringAux_unterminated (s : List Char) (line : Nat) (h : '"' ∉ s) :
    scanStringAux s line = (s, line + newlineCount s, [], false) := by
  induction s generalizing line with
  | nil => simp [scanStringAux, newlineCount]
  | cons c rest ih =>
    rw [List.mem_cons, not_or] at h
    obtain ⟨hc, hrest⟩ := h
    have hc' : ¬(c = '"') := fun hcc => hc hcc.symm
    by_cases hn : c = '\n'
    · simp [scanStringAux, hc', hn, ih _ hrest, newlineCount, List.filter]
      omega
    · simp [scanStringAux, hc', hn, ih _ hrest, newlineCount, List.filter]

/-- C6 (amended): for every source string that is an opening double quote
never closed before end of input, the scanner reports `UNTERMINATED_STRING`
at the line reached at end of input — the opening line plus the newlines
inside the literal — and a STRING token holding the consumed characters IS
appended to the output token list (followed by EOF). -/
theorem claim_C6 (s : List Char) (h : '"' ∉ s) :
    scan (String.mk ('"' :: s)) = some
      ([⟨.STRING, String.mk s, .str (String.mk s)⟩, ⟨.EOF, EOF_LEXEME, .none⟩],
        [(1 + newlineCount s, UNTERMINATED_STRING)]) := by
  have key := scanStringAux_unterminated s 1 h
  show scanLoop (s.length + 1 + 1) ⟨'"' :: s, 1, [], []⟩ = _
  rw [scanLoop_succ]
  have step1 : scanLoopStep (scanLoop (s.length + 1)) ⟨'"' :: s, 1, [], []⟩
      = (match scanStringAux s 1 with
         | (s', line', rest', closed) =>
           scanLoop (s.length + 1) ⟨rest', line',
             [⟨.STRING, String.mk s', .str (String.mk s')⟩],
             if closed then [] else [(line', UNTERMINATED_STRING)]⟩) := rfl
  rw [step1, key]
  rfl

/-- Witness for C6 on the concrete unterminated literal `"x\ny`. -/
theorem claim_C6_witness :
    scan (String.mk ['"', 'x', '\n', 'y']) = some
      ([⟨.STRING, String.mk ['x', '\n', 'y'], .str (String.mk ['x', '\n', 'y'])⟩,
        ⟨.EOF, EOF_LEXEME, .none⟩],
        [(1 + newlineCount ['x', '\n', 'y'], UNTERMINATED_STRING)]) :=
  claim_C6 ['x', '\n', 'y'] (by decide)

end Claims

end Lox
